import Mathlib

/-!
Verification development for the plumbing-grid core
(`src/plumbing_grid.cpp` + its header): a per-overmap adjacency bitset
store, a breadth-first connected-component query (`grid_at`), an edge
mutation API (`add_grid_connection` / `remove_grid_connection`), and a
lazily cached storage-aggregation layer (`plumbing_storage_grid` /
`plumbing_grid_tracker`) with a drain operation.

The C++ is shallowly embedded: machine integers become `Int`/`Nat`,
`std::map`s become association lists or functions with a default, the
mutable global state (adjacency store, tracker, mapbuffer) becomes an
explicit `SysState` threaded through the operations, and the shared
`shared_ptr` storage grids become an arena (`List PlumbingStorageGrid`)
with an index map, so that invalidating a group through one submap key is
visible through every other key of the same group, as with the shared
pointers in the source.
-/

namespace PlumbingGrid

/-- A 3-D integer coordinate (the engine's `tripoint`); used for
overmap-terrain (omt), submap (sm) and map-square (ms) coordinates. -/
structure Tripoint where
  x : Int
  y : Int
  z : Int
deriving DecidableEq

instance : Add Tripoint := ⟨fun a b => ⟨a.x + b.x, a.y + b.y, a.z + b.z⟩⟩
instance : Sub Tripoint := ⟨fun a b => ⟨a.x - b.x, a.y - b.y, a.z - b.z⟩⟩
instance : Neg Tripoint := ⟨fun a => ⟨-a.x, -a.y, -a.z⟩⟩

/-- Modelled from the spec: the direction table (`six_cardinal_directions`
from `cube_direction.h`, which is not part of the provided sources) holds
the six unit vectors — four horizontal cardinals plus up/down.  The exact
order of the table is not observable in any claim; only the facts that it
lists all six unit vectors and that negation maps entries to entries are
used. -/
def six_cardinal_directions : List Tripoint :=
  [⟨0, -1, 0⟩, ⟨1, 0, 0⟩, ⟨0, 1, 0⟩, ⟨-1, 0, 0⟩, ⟨0, 0, 1⟩, ⟨0, 0, -1⟩]

/-- Direction at index `i` of the table (out-of-range indices, which the
source never produces after its adjacency validation, give `0`). -/
def sixDir (i : Nat) : Tripoint := six_cardinal_directions.getD i ⟨0, 0, 0⟩

/-- `std::ranges::find` + `std::distance` over the direction table:
index of the first entry equal to `d`, or `6` when absent. -/
def dirIndexOf (d : Tripoint) : Nat :=
  six_cardinal_directions.findIdx (fun e => decide (e = d))

/-- `plumbing_grid::connection_bitset` (`std::bitset<6>`), modelled as a
predicate on indices; only indices `0..5` are ever used. -/
abbrev ConnBitset : Type := Nat → Bool

def emptyBitset : ConnBitset := fun _ => false

/-- The global connection store.  The C++ shards it as
`std::map<point_abs_om, std::map<tripoint_om_omt, bitset>>`; since an
absolute omt coordinate determines and is determined by the pair
(overmap, local coordinate), we key the association list directly by the
absolute coordinate. -/
abbrev ConnStore : Type := List (Tripoint × ConnBitset)

/-- Per-cell lookup; a missing cell yields the all-zero bitset, as
`connection_bitset_at` does. -/
def storeGet : ConnStore → Tripoint → ConnBitset
  | [], _ => emptyBitset
  | (q, b) :: rest, p => if q = p then b else storeGet rest p

/-- Update-or-insert of a cell's bitset (`connections[p] = ...`). -/
def storeSet : ConnStore → Tripoint → ConnBitset → ConnStore
  | [], p, b => [(p, b)]
  | (q, c) :: rest, p, b =>
      if q = p then (q, b) :: rest else (q, c) :: storeSet rest p b

/-- `connection_bitset_at(p).test(i)`. -/
def bitTest (s : ConnStore) (p : Tripoint) (i : Nat) : Bool := storeGet s p i

/-- Set or clear one direction bit of one cell (`bitset[i] = v`). -/
def setBit (s : ConnStore) (p : Tripoint) (i : Nat) (v : Bool) : ConnStore :=
  storeSet s p (fun j => if j = i then v else storeGet s p j)

/-! ### The breadth-first flood fill of `grid_at` -/

/-- The neighbours pushed while processing `elem` in the `grid_at` loop:
for each direction index in table order, if the bit is set and the
neighbour is not yet in the result set, it is enqueued. -/
def pushesOf (s : ConnStore) (result : List Tripoint) (elem : Tripoint) :
    List Tripoint :=
  (List.range six_cardinal_directions.length).filterMap (fun i =>
    if bitTest s elem i then
      if (elem + sixDir i) ∈ result then none else some (elem + sixDir i)
    else none)

/-- A finite superset of every cell the flood fill can touch: the seed
plus every neighbour slot of every cell recorded in the store. -/
def bfsUniverse (s : ConnStore) (seed : Tripoint) : List Tripoint :=
  seed :: s.flatMap (fun e => (List.range 6).map (fun i => e.1 + sixDir i))

/-- Weight used by the termination measure: entries of already-visited
cells weigh 7, others weigh 1. -/
def wsum (result queue : List Tripoint) : Nat :=
  (queue.map (fun v => if v ∈ result then 7 else 1)).sum

lemma bitTest_mem_keys {s : ConnStore} {p : Tripoint} {i : Nat}
    (h : bitTest s p i = true) : ∃ b, (p, b) ∈ s := by
  induction s with
  | nil =>
    rw [bitTest, storeGet, emptyBitset] at h
    cases h
  | cons e rest ih =>
    rcases e with ⟨q, b⟩
    by_cases hq : q = p
    · exact ⟨b, by simp [hq]⟩
    · rw [bitTest, storeGet, if_neg hq] at h
      obtain ⟨c, hc⟩ := ih h
      exact ⟨c, List.mem_cons_of_mem _ hc⟩

lemma mem_pushesOf {s : ConnStore} {r : List Tripoint} {e v : Tripoint} :
    v ∈ pushesOf s r e ↔
      ∃ i, i < 6 ∧ bitTest s e i = true ∧ v = e + sixDir i ∧ v ∉ r := by
  have hlen : six_cardinal_directions.length = 6 := rfl
  constructor
  · intro hv
    simp only [pushesOf, List.mem_filterMap, List.mem_range, hlen] at hv
    obtain ⟨i, hi, h⟩ := hv
    by_cases hb : bitTest s e i
    · rw [if_pos hb] at h
      by_cases hm : (e + sixDir i) ∈ r
      · rw [if_pos hm] at h
        cases h
      · rw [if_neg hm] at h
        have hv' : v = e + sixDir i := (Option.some.inj h).symm
        exact ⟨i, hi, hb, hv', hv' ▸ hm⟩
    · rw [if_neg hb] at h
      cases h
  · rintro ⟨i, hi, hb, hv, hnr⟩
    simp only [pushesOf, List.mem_filterMap, List.mem_range, hlen]
    refine ⟨i, hi, ?_⟩
    rw [if_pos hb, if_neg (hv ▸ hnr), hv]

lemma pushesOf_length_le (s : ConnStore) (r : List Tripoint) (e : Tripoint) :
    (pushesOf s r e).length ≤ 6 := by
  have h := List.length_filterMap_le (fun i =>
    if bitTest s e i then
      if (e + sixDir i) ∈ r then none else some (e + sixDir i)
    else none) (List.range six_cardinal_directions.length)
  rw [List.length_range] at h
  exact h

lemma length_filter_mono {α : Type} (l : List α) (p q : α → Bool)
    (h : ∀ a, p a = true → q a = true) :
    (l.filter p).length ≤ (l.filter q).length := by
  induction l with
  | nil => simp
  | cons a l ih =>
    by_cases hp : p a = true
    · rw [List.filter_cons_of_pos hp, List.filter_cons_of_pos (h a hp)]
      simpa using ih
    · rw [List.filter_cons_of_neg (by simpa using hp)]
      by_cases hqa : q a = true
      · rw [List.filter_cons_of_pos hqa]
        exact Nat.le_succ_of_le ih
      · rw [List.filter_cons_of_neg (by simpa using hqa)]
        exact ih

lemma length_filter_lt_of_mem {U result : List Tripoint} {a : Tripoint}
    (ha : a ∈ U) (hna : a ∉ result) :
    (U.filter (fun v => decide (v ∉ a :: result))).length <
      (U.filter (fun v => decide (v ∉ result))).length := by
  induction U with
  | nil => cases ha
  | cons u U ih =>
    have hmono : (U.filter (fun v => decide (v ∉ a :: result))).length ≤
        (U.filter (fun v => decide (v ∉ result))).length := by
      apply length_filter_mono
      intro v hv
      simp only [decide_eq_true_eq] at hv ⊢
      exact fun hm => hv (List.mem_cons_of_mem _ hm)
    rcases List.mem_cons.mp ha with rfl | hu
    · have e1 : List.filter (fun v => decide (v ∉ a :: result)) (a :: U)
          = List.filter (fun v => decide (v ∉ a :: result)) U := by
        rw [List.filter_cons]
        simp
      have e2 : List.filter (fun v => decide (v ∉ result)) (a :: U)
          = a :: List.filter (fun v => decide (v ∉ result)) U := by
        rw [List.filter_cons]
        simp [hna]
      rw [e1, e2, List.length_cons]
      omega
    · have hlt := ih hu
      by_cases h3 : u ∈ a :: result
      · have e1 : List.filter (fun v => decide (v ∉ a :: result)) (u :: U)
            = List.filter (fun v => decide (v ∉ a :: result)) U := by
          rw [List.filter_cons]
          simp [h3]
        rw [e1]
        by_cases h4 : u ∈ result
        · have e2 : List.filter (fun v => decide (v ∉ result)) (u :: U)
              = List.filter (fun v => decide (v ∉ result)) U := by
            rw [List.filter_cons]
            simp [h4]
          rw [e2]
          exact hlt
        · have e2 : List.filter (fun v => decide (v ∉ result)) (u :: U)
              = u :: List.filter (fun v => decide (v ∉ result)) U := by
            rw [List.filter_cons]
            simp [h4]
          rw [e2, List.length_cons]
          omega
      · have h4 : u ∉ result := fun hm => h3 (List.mem_cons_of_mem _ hm)
        have e1 : List.filter (fun v => decide (v ∉ a :: result)) (u :: U)
            = u :: List.filter (fun v => decide (v ∉ a :: result)) U := by
          rw [List.filter_cons]
          simp [h3]
        have e2 : List.filter (fun v => decide (v ∉ result)) (u :: U)
            = u :: List.filter (fun v => decide (v ∉ result)) U := by
          rw [List.filter_cons]
          simp [h4]
        rw [e1, e2, List.length_cons, List.length_cons]
        omega

lemma wsum_cons (result : List Tripoint) (v : Tripoint)
    (queue : List Tripoint) :
    wsum result (v :: queue) =
      (if v ∈ result then 7 else 1) + wsum result queue := by
  simp [wsum]

lemma wsum_all_new {result queue : List Tripoint}
    (h : ∀ v ∈ queue, v ∉ result) : wsum result queue = queue.length := by
  induction queue with
  | nil => simp [wsum]
  | cons q rest ih =>
    have hq : q ∉ result := h q (by simp)
    rw [wsum_cons, if_neg hq, ih (fun v hv => h v (List.mem_cons_of_mem _ hv)),
      List.length_cons]
    omega

lemma wsum_append (result q1 q2 : List Tripoint) :
    wsum result (q1 ++ q2) = wsum result q1 + wsum result q2 := by
  simp [wsum]

/-- The set-insertion of `result.emplace(elem)`: the result set modelled
as a duplicate-free list observed through membership. -/
def visitInsert (elem : Tripoint) (result : List Tripoint) : List Tripoint :=
  if elem ∈ result then result else elem :: result

/-- The loop of `grid_at`, instrumented with the trace of dequeued cells.
`result` plays the role of the `std::set`, `queue` the `std::queue`.  The
two proof arguments only serve the termination measure; they do not
influence the computation. -/
def bfsLoopT (s : ConnStore) (U : List Tripoint)
    (hp : ∀ p i, i < 6 → bitTest s p i = true → p + sixDir i ∈ U) :
    (result : List Tripoint) → (trace : List Tripoint) →
    (queue : List Tripoint) → (_ : ∀ v ∈ queue, v ∈ U) →
    List Tripoint × List Tripoint
  | result, trace, [], _ => (result, trace)
  | result, trace, elem :: rest, hq =>
      bfsLoopT s U hp (visitInsert elem result) (trace ++ [elem])
        (rest ++ pushesOf s (visitInsert elem result) elem)
        (by
          intro v hv
          rcases List.mem_append.mp hv with h | h
          · exact hq v (List.mem_cons_of_mem _ h)
          · obtain ⟨i, hi, hb, hveq, _⟩ := mem_pushesOf.mp h
            exact hveq ▸ hp elem i hi hb)
  termination_by result _ queue _ =>
    ((U.filter (fun v => decide (v ∉ result))).length, wsum result queue)
  decreasing_by
    by_cases hmem : elem ∈ result
    · rw [visitInsert, if_pos hmem]
      apply Prod.Lex.right
      rw [wsum_append, wsum_cons, if_pos hmem]
      have h1 : wsum result (pushesOf s result elem) =
          (pushesOf s result elem).length := by
        apply wsum_all_new
        intro v hv
        obtain ⟨_, _, _, _, hnr⟩ := mem_pushesOf.mp hv
        exact hnr
      have h2 := pushesOf_length_le s result elem
      omega
    · rw [visitInsert, if_neg hmem]
      apply Prod.Lex.left
      exact length_filter_lt_of_mem (hq elem (by simp)) hmem

/-- `plumbing_grid::grid_at`, instrumented: first component is the
result set of the breadth-first flood fill, second the trace of dequeued
cells (each loop iteration of the C++ `while` dequeues exactly once). -/
def gridAtRun (s : ConnStore) (p : Tripoint) : List Tripoint × List Tripoint :=
  bfsLoopT s (bfsUniverse s p)
    (by
      intro q i hi hb
      obtain ⟨b, hbmem⟩ := bitTest_mem_keys hb
      simp only [bfsUniverse, List.mem_cons, List.mem_flatMap, List.mem_map,
        List.mem_range]
      exact Or.inr ⟨(q, b), hbmem, i, hi, rfl⟩)
    [] [] [p]
    (by
      intro v hv
      simp only [List.mem_singleton] at hv
      simp [bfsUniverse, hv])

/-- `plumbing_grid::grid_at`: the connected component of `p`, as the set
of visited cells (the `std::set` result of the C++ function). -/
def grid_at (s : ConnStore) (p : Tripoint) : List Tripoint :=
  (gridAtRun s p).1

/-- The dequeue trace of the flood fill behind `grid_at`. -/
def grid_at_trace (s : ConnStore) (p : Tripoint) : List Tripoint :=
  (gridAtRun s p).2

/-- Reachability along set adjacency bits: the transitive closure the
flood fill is meant to compute. -/
inductive Reachable (s : ConnStore) : Tripoint → Tripoint → Prop
  | refl (p : Tripoint) : Reachable s p p
  | step {p q : Tripoint} (i : Nat) (hi : i < 6) (hr : Reachable s p q)
      (hb : bitTest s q i = true) : Reachable s p (q + sixDir i)

lemma mem_visitInsert {v e : Tripoint} {r : List Tripoint} :
    v ∈ visitInsert e r ↔ v = e ∨ v ∈ r := by
  rw [visitInsert]
  by_cases h : e ∈ r
  · rw [if_pos h]
    constructor
    · exact Or.inr
    · rintro (rfl | hv)
      · exact h
      · exact hv
  · rw [if_neg h]
    exact List.mem_cons

lemma visitInsert_nodup {e : Tripoint} {r : List Tripoint}
    (h : r.Nodup) : (visitInsert e r).Nodup := by
  rw [visitInsert]
  by_cases hm : e ∈ r
  · rwa [if_pos hm]
  · rw [if_neg hm]
    exact List.nodup_cons.mpr ⟨hm, h⟩

lemma bfsLoopT_mono (s : ConnStore) (U : List Tripoint)
    (hp : ∀ p i, i < 6 → bitTest s p i = true → p + sixDir i ∈ U) :
    ∀ (result trace queue : List Tripoint) (hq : ∀ v ∈ queue, v ∈ U),
      ∀ v ∈ result, v ∈ (bfsLoopT s U hp result trace queue hq).1 := by
  intro result trace queue hq
  induction result, trace, queue, hq using bfsLoopT.induct s U hp with
  | case1 result trace hq _ =>
    intro v hv
    rw [bfsLoopT]
    exact hv
  | case2 result trace elem rest hq _ ih =>
    intro v hv
    rw [bfsLoopT]
    exact ih v (mem_visitInsert.mpr (Or.inr hv))

lemma bfsLoopT_queue_subset (s : ConnStore) (U : List Tripoint)
    (hp : ∀ p i, i < 6 → bitTest s p i = true → p + sixDir i ∈ U) :
    ∀ (result trace queue : List Tripoint) (hq : ∀ v ∈ queue, v ∈ U),
      ∀ v ∈ queue, v ∈ (bfsLoopT s U hp result trace queue hq).1 := by
  intro result trace queue hq
  induction result, trace, queue, hq using bfsLoopT.induct s U hp with
  | case1 result trace hq _ =>
    intro v hv
    cases hv
  | case2 result trace elem rest hq _ ih =>
    intro v hv
    rw [bfsLoopT]
    rcases List.mem_cons.mp hv with rfl | hv
    · exact bfsLoopT_mono s U hp _ _ _ _ v
        (mem_visitInsert.mpr (Or.inl rfl))
    · exact ih v (List.mem_append_left _ hv)

lemma bfsLoopT_trace_mono (s : ConnStore) (U : List Tripoint)
    (hp : ∀ p i, i < 6 → bitTest s p i = true → p + sixDir i ∈ U) :
    ∀ (result trace queue : List Tripoint) (hq : ∀ v ∈ queue, v ∈ U),
      ∀ v ∈ trace, v ∈ (bfsLoopT s U hp result trace queue hq).2 := by
  intro result trace queue hq
  induction result, trace, queue, hq using bfsLoopT.induct s U hp with
  | case1 result trace hq _ =>
    intro v hv
    rw [bfsLoopT]
    exact hv
  | case2 result trace elem rest hq _ ih =>
    intro v hv
    rw [bfsLoopT]
    exact ih v (List.mem_append_left _ hv)

lemma bfsLoopT_result_traced (s : ConnStore) (U : List Tripoint)
    (hp : ∀ p i, i < 6 → bitTest s p i = true → p + sixDir i ∈ U) :
    ∀ (result trace queue : List Tripoint) (hq : ∀ v ∈ queue, v ∈ U),
      ∀ v ∈ (bfsLoopT s U hp result trace queue hq).1,
        v ∈ result ∨ v ∈ (bfsLoopT s U hp result trace queue hq).2 := by
  intro result trace queue hq
  induction result, trace, queue, hq using bfsLoopT.induct s U hp with
  | case1 result trace hq _ =>
    intro v hv
    rw [bfsLoopT] at hv ⊢
    exact Or.inl hv
  | case2 result trace elem rest hq _ ih =>
    intro v hv
    rw [bfsLoopT] at hv ⊢
    rcases ih v hv with hres | htr
    · rcases mem_visitInsert.mp hres with rfl | hold
      · exact Or.inr (bfsLoopT_trace_mono s U hp _ _ _ _ v
          (List.mem_append_right _ (by simp)))
      · exact Or.inl hold
    · exact Or.inr htr

lemma bfsLoopT_nodup (s : ConnStore) (U : List Tripoint)
    (hp : ∀ p i, i < 6 → bitTest s p i = true → p + sixDir i ∈ U) :
    ∀ (result trace queue : List Tripoint) (hq : ∀ v ∈ queue, v ∈ U),
      result.Nodup → (bfsLoopT s U hp result trace queue hq).1.Nodup := by
  intro result trace queue hq
  induction result, trace, queue, hq using bfsLoopT.induct s U hp with
  | case1 result trace hq _ =>
    intro h
    rw [bfsLoopT]
    exact h
  | case2 result trace elem rest hq _ ih =>
    intro h
    rw [bfsLoopT]
    exact ih (visitInsert_nodup h)

lemma bfsLoopT_closed (s : ConnStore) (U : List Tripoint)
    (hp : ∀ p i, i < 6 → bitTest s p i = true → p + sixDir i ∈ U) :
    ∀ (result trace queue : List Tripoint) (hq : ∀ v ∈ queue, v ∈ U),
      (∀ v ∈ result, ∀ i, i < 6 → bitTest s v i = true →
        v + sixDir i ∈ result ∨ v + sixDir i ∈ queue) →
      ∀ v ∈ (bfsLoopT s U hp result trace queue hq).1, ∀ i, i < 6 →
        bitTest s v i = true →
        v + sixDir i ∈ (bfsLoopT s U hp result trace queue hq).1 := by
  intro result trace queue hq
  induction result, trace, queue, hq using bfsLoopT.induct s U hp with
  | case1 result trace hq _ =>
    intro hinv v hv i hi hb
    rw [bfsLoopT] at hv ⊢
    rcases hinv v hv i hi hb with h | h
    · exact h
    · cases h
  | case2 result trace elem rest hq _ ih =>
    intro hinv v hv i hi hb
    rw [bfsLoopT] at hv ⊢
    refine ih ?_ v hv i hi hb
    intro w hw j hj hjb
    rcases mem_visitInsert.mp hw with rfl | hwold
    · by_cases hm : w + sixDir j ∈ visitInsert w result
      · exact Or.inl hm
      · exact Or.inr (List.mem_append_right _
          (mem_pushesOf.mpr ⟨j, hj, hjb, rfl, hm⟩))
    · rcases hinv w hwold j hj hjb with h | h
      · exact Or.inl (mem_visitInsert.mpr (Or.inr h))
      · rcases List.mem_cons.mp h with heq | hrest
        · exact Or.inl (heq ▸ mem_visitInsert.mpr (Or.inl rfl))
        · exact Or.inr (List.mem_append_left _ hrest)

lemma bfsLoopT_sound (s : ConnStore) (U : List Tripoint)
    (hp : ∀ p i, i < 6 → bitTest s p i = true → p + sixDir i ∈ U)
    (root : Tripoint) :
    ∀ (result trace queue : List Tripoint) (hq : ∀ v ∈ queue, v ∈ U),
      (∀ v ∈ result, Reachable s root v) →
      (∀ v ∈ queue, Reachable s root v) →
      ∀ v ∈ (bfsLoopT s U hp result trace queue hq).1,
        Reachable s root v := by
  intro result trace queue hq
  induction result, trace, queue, hq using bfsLoopT.induct s U hp with
  | case1 result trace hq _ =>
    intro hres _ v hv
    rw [bfsLoopT] at hv
    exact hres v hv
  | case2 result trace elem rest hq _ ih =>
    intro hres hqueue v hv
    rw [bfsLoopT] at hv
    refine ih ?_ ?_ v hv
    · intro w hw
      rcases mem_visitInsert.mp hw with rfl | hwold
      · exact hqueue w (by simp)
      · exact hres w hwold
    · intro w hw
      rcases List.mem_append.mp hw with h | h
      · exact hqueue w (List.mem_cons_of_mem _ h)
      · obtain ⟨i, hi, hb, hveq, _⟩ := mem_pushesOf.mp h
        exact hveq ▸ Reachable.step i hi (hqueue elem (by simp)) hb

/-- Helper characterisation of `grid_at`: membership in the flood-fill
result coincides with reachability along set adjacency bits. -/
lemma mem_grid_at_iff {s : ConnStore} {p c : Tripoint} :
    c ∈ grid_at s p ↔ Reachable s p c := by
  constructor
  · intro hc
    exact bfsLoopT_sound s (bfsUniverse s p) _ p [] [] [p] _
      (by intro v hv; cases hv)
      (by
        intro v hv
        rcases List.mem_singleton.mp hv with rfl
        exact Reachable.refl v)
      c hc
  · intro hr
    induction hr with
    | refl =>
      exact bfsLoopT_queue_subset s (bfsUniverse s p) _ [] [] [p] _ p
        (by simp)
    | step i hi hr hb ih =>
      exact bfsLoopT_closed s (bfsUniverse s p) _ [] [] [p] _
        (by intro v hv; cases hv) _ ih i hi hb

/-- The seed is always in its own component. -/
lemma self_mem_grid_at (s : ConnStore) (p : Tripoint) : p ∈ grid_at s p :=
  mem_grid_at_iff.mpr (Reachable.refl p)

/-- Every cell of the result set was dequeued at some point. -/
lemma grid_at_subset_trace {s : ConnStore} {p c : Tripoint}
    (h : c ∈ grid_at s p) : c ∈ grid_at_trace s p := by
  rcases bfsLoopT_result_traced s (bfsUniverse s p) _ [] [] [p] _ c h
    with h0 | h1
  · cases h0
  · exact h1

/-- The result set is duplicate-free (it models the C++ `std::set`). -/
lemma grid_at_nodup (s : ConnStore) (p : Tripoint) : (grid_at s p).Nodup :=
  bfsLoopT_nodup s (bfsUniverse s p) _ [] [] [p] _ List.nodup_nil

/-! ### Coordinate projections

The projection arithmetic lives in `coordinates.h` /
`coordinate_conversions.h`, outside the provided sources; the scale
factors are the engine's fixed constants (180 omt per overmap side,
2 submaps per omt side, 12 map squares per submap side, hence 24 map
squares per omt side), with floor division for negative coordinates. -/

/-- Overmap side length in overmap terrain units. -/
def OMAPX : Int := 180

/-- `project_to<coords::om>(omt).xy()` — which overmap column/row an omt
coordinate belongs to (`z` is dropped by `.xy()`). -/
def omtToOmXY (p : Tripoint) : Int × Int := (p.x.fdiv OMAPX, p.y.fdiv OMAPX)

/-- `project_to<coords::sm>` on an omt coordinate. -/
def omtToSm (p : Tripoint) : Tripoint := ⟨2 * p.x, 2 * p.y, p.z⟩

/-- `project_to<coords::omt>` on a submap coordinate. -/
def smToOmt (p : Tripoint) : Tripoint := ⟨p.x.fdiv 2, p.y.fdiv 2, p.z⟩

/-- `project_to<coords::ms>` on an omt coordinate. -/
def omtToMs (p : Tripoint) : Tripoint := ⟨24 * p.x, 24 * p.y, p.z⟩

/-- `project_to<coords::omt>` on a map-square coordinate. -/
def msToOmt (p : Tripoint) : Tripoint := ⟨p.x.fdiv 24, p.y.fdiv 24, p.z⟩

/-- The submap part of `project_remain<coords::sm>` on a map square. -/
def msToSm (p : Tripoint) : Tripoint := ⟨p.x.fdiv 12, p.y.fdiv 12, p.z⟩

/-- The in-submap remainder of `project_remain<coords::sm>`. -/
def msRemX (p : Tripoint) : Nat := (p.x.emod 12).toNat

/-- The in-submap remainder of `project_remain<coords::sm>`. -/
def msRemY (p : Tripoint) : Nat := (p.y.emod 12).toNat

/-- `abs(dx) + abs(dy) + abs(dz)` — the Manhattan distance the mutation
API validates against. -/
def manhattan (d : Tripoint) : Nat := d.x.natAbs + d.y.natAbs + d.z.natAbs

/-! ### The world model for the storage aggregation layer -/

/-- An item stack as far as this module observes it: its type id, whether
it is made of liquid, and its volume. -/
structure Item where
  typeId : Nat
  liquid : Bool
  vol : Int
deriving DecidableEq

/-- A furniture as far as this module observes it: its string id
(abstracted to a number) and its `keg_capacity`. -/
structure FurnT where
  fid : Nat
  keg_capacity : Int
deriving DecidableEq

/-- The id of the `f_standing_tank_plumbed` furniture. -/
def furn_standing_tank_plumbed : Nat := 1

/-- Submap side length (`SEEX`/`SEEY` from `game_constants.h`). -/
def SEEX : Nat := 12

/-- A submap: furniture and item stacks per in-submap position; the scan
loops only touch positions `0 ≤ x, y < SEEX`. -/
structure Submap where
  furn : Nat → Nat → FurnT
  items : Nat → Nat → List Item

/-- The `mapbuffer`: submaps by absolute submap coordinate;
`lookup_submap` returning `nullptr` is `none`. -/
abbrev Mapbuffer : Type := Tripoint → Option Submap

/-- `plumbing_tank_location`. -/
structure TankLoc where
  sm : Tripoint
  px : Nat
  py : Nat
deriving DecidableEq

/-- The constructor scan of `plumbing_storage_grid` over one submap
coordinate: if the submap is resident, collect every position holding the
plumbed standing tank furniture (x outer, y inner, as the nested
`for_each` does). -/
def scanSubmapTanks (mb : Mapbuffer) (smc : Tripoint) : List TankLoc :=
  match mb smc with
  | none => []
  | some sm =>
      (List.range SEEX).flatMap (fun x =>
        (List.range SEEX).filterMap (fun y =>
          if (sm.furn x y).fid = furn_standing_tank_plumbed then
            some ⟨smc, x, y⟩
          else none))

/-- `plumbing_grid::water_storage_stats`. -/
structure WaterStorageStats where
  capacity : Int
  stored : Int
deriving DecidableEq

/-- `plumbing_storage_grid`: the submap coordinates it spans, the tank
locations found at construction, and the memoised stats (the C++
`mutable std::optional` cache). -/
structure PlumbingStorageGrid where
  submap_coords : List Tripoint
  tank_locations : List TankLoc
  cached_stats : Option WaterStorageStats
deriving DecidableEq

/-- The `plumbing_storage_grid` constructor. -/
def mkStorageGrid (coords : List Tripoint) (mb : Mapbuffer) :
    PlumbingStorageGrid :=
  ⟨coords, coords.flatMap (scanSubmapTanks mb), none⟩

/-- Total volume of the liquid stacks in an item list (the inner loop of
`get_stats`). -/
def liquidVolume (items : List Item) : Int :=
  (items.map (fun it => if it.liquid then it.vol else 0)).sum

/-- The scan part of `get_stats`: walk the remembered tank locations,
skip non-resident submaps and locations whose furniture changed, sum
`keg_capacity` into `capacity` and liquid volumes into `stored`. -/
def scanStats (locs : List TankLoc) (mb : Mapbuffer) : WaterStorageStats :=
  locs.foldl (fun stats loc =>
    match mb loc.sm with
    | none => stats
    | some sm =>
        if (sm.furn loc.px loc.py).fid = furn_standing_tank_plumbed then
          ⟨stats.capacity + (sm.furn loc.px loc.py).keg_capacity,
            stats.stored + liquidVolume (sm.items loc.px loc.py)⟩
        else stats) ⟨0, 0⟩

/-- `plumbing_storage_grid::get_stats`: return the memoised summary when
present, otherwise scan and memoise. -/
def get_stats (g : PlumbingStorageGrid) (mb : Mapbuffer) :
    WaterStorageStats × PlumbingStorageGrid :=
  match g.cached_stats with
  | some s => (s, g)
  | none =>
      let s := scanStats g.tank_locations mb
      (s, { g with cached_stats := some s })

/-- Replace the item list at one in-submap position. -/
def Submap.setItems (sm : Submap) (px py : Nat) (l : List Item) : Submap :=
  { sm with items := fun a b => if a = px ∧ b = py then l else sm.items a b }

/-- Replace the item list at one location of the mapbuffer (no-op when
the submap is not resident, matching the `nullptr` checks). -/
def mbSetItems (mb : Mapbuffer) (smc : Tripoint) (px py : Nat)
    (l : List Item) : Mapbuffer :=
  match mb smc with
  | none => mb
  | some sm => fun q => if q = smc then some (sm.setItems px py l) else mb q

/-- Modelled from the spec: the resource-item construction facility
(`item::spawn` plus `charges_per_volume`, both outside the provided
sources) produces one liquid stack of the given kind sized to the given
total volume. -/
def spawnLiquid (kind : Nat) (vol : Int) : Item := ⟨kind, true, vol⟩

/-- One step of the collection loop of `drain_to`: accumulator is
(mapbuffer, total volume, remembered kind, has-liquid flag).  A resident
submap still holding the tank furniture has its liquids summed (the
first-encountered liquid fixes the kind) and its item list cleared. -/
def drainStep : Mapbuffer × Int × Nat × Bool → TankLoc →
    Mapbuffer × Int × Nat × Bool
  | (mb, total, kind, has), loc =>
    match mb loc.sm with
    | none => (mb, total, kind, has)
    | some sm =>
        if (sm.furn loc.px loc.py).fid = furn_standing_tank_plumbed then
          (mbSetItems mb loc.sm loc.px loc.py [],
            (sm.items loc.px loc.py).foldl
              (fun (a : Int × Nat × Bool) it =>
                if it.liquid then
                  (a.1 + it.vol, (if a.2.2 then a.2.1 else it.typeId), true)
                else a) (total, kind, has))
        else (mb, total, kind, has)

/-- The collection loop of `drain_to` over all tank locations. -/
def drainCollect (locs : List TankLoc) (mb : Mapbuffer) :
    Mapbuffer × Int × Nat × Bool :=
  locs.foldl drainStep (mb, 0, 0, false)

/-- `plumbing_storage_grid::drain_to`: collect and clear all liquids,
drop the memoised stats, and — when liquid was found — place one merged
stack at the target map square, replacing whatever was there. -/
def drain_to (g : PlumbingStorageGrid) (mb : Mapbuffer) (target : Tripoint) :
    PlumbingStorageGrid × Mapbuffer :=
  let r := drainCollect g.tank_locations mb
  let g' := { g with cached_stats := none }
  if r.2.2.2 = false ∨ r.2.1 ≤ 0 then (g', r.1)
  else
    (g', mbSetItems r.1 (msToSm target) (msRemX target) (msRemY target)
      [spawnLiquid r.2.2.1 r.2.1])

/-! ### The tracker (`plumbing_grid_tracker`)

The C++ keeps `std::map<tripoint_abs_sm, shared_ptr_fast<plumbing_storage_grid>>`;
we model the shared pointers as an arena of grids plus an index from
submap coordinate to arena slot, so mutation through one key is seen
through every key of the same group. -/

def idxGet : List (Tripoint × Nat) → Tripoint → Option Nat
  | [], _ => none
  | (q, i) :: rest, p => if q = p then some i else idxGet rest p

def idxSet : List (Tripoint × Nat) → Tripoint → Nat → List (Tripoint × Nat)
  | [], p, i => [(p, i)]
  | (q, j) :: rest, p, i =>
      if q = p then (q, i) :: rest else (q, j) :: idxSet rest p i

def idxSetMany (idx : List (Tripoint × Nat)) (ps : List Tripoint)
    (i : Nat) : List (Tripoint × Nat) :=
  ps.foldl (fun a p => idxSet a p i) idx

structure Tracker where
  arena : List PlumbingStorageGrid
  index : List (Tripoint × Nat)

/-- The four submaps under each omt cell of a component
(`base + {zero, east, south, south_east}`). -/
def submapsOfComponent (comp : List Tripoint) : List Tripoint :=
  comp.flatMap (fun omp =>
    [omtToSm omp, omtToSm omp + ⟨1, 0, 0⟩, omtToSm omp + ⟨0, 1, 0⟩,
      omtToSm omp + ⟨1, 1, 0⟩])

/-- An unreferenced empty grid (the `static empty_storage_grid` of the
dead branch, and the default for out-of-range arena reads). -/
def emptyStorageGrid : PlumbingStorageGrid := ⟨[], [], none⟩

/-- `plumbing_grid_tracker::make_storage_grid_at`: derive the component
of the cell owning `sm_pos`, expand it to submap coordinates, build a
fresh storage grid over them and remap every one of those submap keys to
it.  The empty branch mirrors the C++ static-empty-grid fallback; it is
dead because `grid_at` always contains its seed. -/
def Tracker.makeStorageGridAt (t : Tracker) (s : ConnStore)
    (mb : Mapbuffer) (sm_pos : Tripoint) : Tracker × Option Nat :=
  let subs := submapsOfComponent (grid_at s (smToOmt sm_pos))
  if subs.isEmpty then (t, none)
  else
    (⟨t.arena ++ [mkStorageGrid subs mb],
      idxSetMany t.index subs t.arena.length⟩, some t.arena.length)

/-- `plumbing_grid_tracker::storage_at`, returning the arena slot of the
grid for the omt cell `p` (building it on a miss). -/
def Tracker.storageIdx (t : Tracker) (s : ConnStore) (mb : Mapbuffer)
    (p : Tripoint) : Tracker × Option Nat :=
  match idxGet t.index (omtToSm p) with
  | some i => (t, some i)
  | none => t.makeStorageGridAt s mb (omtToSm p)

/-- The whole mutable state of the module: the global connection store,
the tracker singleton and the mapbuffer. -/
structure SysState where
  store : ConnStore
  tracker : Tracker
  mb : Mapbuffer

/-- `plumbing_grid::water_storage_at`. -/
def water_storage_at (st : SysState) (p : Tripoint) :
    SysState × WaterStorageStats :=
  let r := st.tracker.storageIdx st.store st.mb p
  match r.2 with
  | none => ({ st with tracker := r.1 }, (get_stats emptyStorageGrid st.mb).1)
  | some i =>
      let gr := get_stats (r.1.arena.getD i emptyStorageGrid) st.mb
      ({ st with tracker := ⟨r.1.arena.set i gr.2, r.1.index⟩ }, gr.1)

/-- `plumbing_grid::on_contents_changed` =
`plumbing_grid_tracker::invalidate_at`: drop the memoised stats of the
group owning the submap of `p`, when one is indexed. -/
def on_contents_changed (st : SysState) (p : Tripoint) : SysState :=
  match idxGet st.tracker.index (msToSm p) with
  | none => st
  | some i =>
      { st with tracker := ⟨st.tracker.arena.set i
          { st.tracker.arena.getD i emptyStorageGrid with
            cached_stats := none }, st.tracker.index⟩ }

/-- `plumbing_grid::on_structure_changed` =
`plumbing_grid_tracker::rebuild_at`: unconditionally rebuild the storage
grid covering the submap of `p`. -/
def on_structure_changed (st : SysState) (p : Tripoint) : SysState :=
  { st with tracker := (st.tracker.makeStorageGridAt st.store st.mb
      (msToSm p)).1 }

/-- `plumbing_grid::disconnect_tank` =
`plumbing_grid_tracker::disconnect_tank_at`: drain the storage grid of
the omt cell of `p` into `p`. -/
def disconnect_tank (st : SysState) (p : Tripoint) : SysState :=
  let r := st.tracker.storageIdx st.store st.mb (msToOmt p)
  match r.2 with
  | none => { st with tracker := r.1 }
  | some i =>
      let d := drain_to (r.1.arena.getD i emptyStorageGrid) st.mb p
      { store := st.store, tracker := ⟨r.1.arena.set i d.1, r.1.index⟩,
        mb := d.2 }

/-! ### The mutation API -/

/-- The store-level part of `add_grid_connection`: validation and bit
setting, with the success flag.  (The C++ interleaves the notifications
after the bit writes; `add_grid_connection` below adds them.) -/
def addConnPure (s : ConnStore) (lhs rhs : Tripoint) : ConnStore × Bool :=
  if omtToOmXY lhs ≠ omtToOmXY rhs then (s, false)
  else if manhattan (rhs - lhs) ≠ 1 then (s, false)
  else
    let lhs_i := dirIndexOf (rhs - lhs)
    let rhs_i := dirIndexOf (-(rhs - lhs))
    if bitTest s lhs lhs_i = true ∧ bitTest s rhs rhs_i = true then (s, false)
    else (setBit (setBit s lhs lhs_i true) rhs rhs_i true, true)

/-- `plumbing_grid::add_grid_connection`: on success the structure-change
notifications rebuild the storage grids at both endpoints. -/
def add_grid_connection (st : SysState) (lhs rhs : Tripoint) :
    SysState × Bool :=
  let r := addConnPure st.store lhs rhs
  if r.2 then
    (on_structure_changed
      (on_structure_changed { st with store := r.1 } (omtToMs lhs))
      (omtToMs rhs), true)
  else (st, false)

/-- The store-level part of `remove_grid_connection`.  Note: unlike the
add path, the C++ performs no cross-overmap check here. -/
def removeConnPure (s : ConnStore) (lhs rhs : Tripoint) : ConnStore × Bool :=
  if manhattan (rhs - lhs) ≠ 1 then (s, false)
  else
    let lhs_i := dirIndexOf (rhs - lhs)
    let rhs_i := dirIndexOf (-(rhs - lhs))
    if bitTest s lhs lhs_i = false ∧ bitTest s rhs rhs_i = false then
      (s, false)
    else (setBit (setBit s lhs lhs_i false) rhs rhs_i false, true)

/-- `plumbing_grid::remove_grid_connection`. -/
def remove_grid_connection (st : SysState) (lhs rhs : Tripoint) :
    SysState × Bool :=
  let r := removeConnPure st.store lhs rhs
  if r.2 then
    (on_structure_changed
      (on_structure_changed { st with store := r.1 } (omtToMs lhs))
      (omtToMs rhs), true)
  else (st, false)

/-- One Mutation API call. -/
inductive MutOp where
  | addConn (a b : Tripoint)
  | removeConn (a b : Tripoint)

def applyOp (st : SysState) : MutOp → SysState
  | .addConn a b => (add_grid_connection st a b).1
  | .removeConn a b => (remove_grid_connection st a b).1

def applyOps (st : SysState) (ops : List MutOp) : SysState :=
  ops.foldl applyOp st

/-- The state with the empty adjacency store and a fresh tracker. -/
def initState (mb : Mapbuffer) : SysState := ⟨[], ⟨[], []⟩, mb⟩

/-! ### Direction-table and store lemmas -/

lemma tp_add (a b : Tripoint) : a + b = ⟨a.x + b.x, a.y + b.y, a.z + b.z⟩ :=
  rfl

lemma tp_sub (a b : Tripoint) : a - b = ⟨a.x - b.x, a.y - b.y, a.z - b.z⟩ :=
  rfl

lemma tp_neg (a : Tripoint) : -a = ⟨-a.x, -a.y, -a.z⟩ := rfl

set_option maxHeartbeats 1000000 in
lemma manhattan_one_cases {d : Tripoint} (h : manhattan d = 1) :
    d = ⟨0, -1, 0⟩ ∨ d = ⟨1, 0, 0⟩ ∨ d = ⟨0, 1, 0⟩ ∨ d = ⟨-1, 0, 0⟩ ∨
      d = ⟨0, 0, 1⟩ ∨ d = ⟨0, 0, -1⟩ := by
  obtain ⟨x, y, z⟩ := d
  simp only [manhattan] at h
  simp only [Tripoint.mk.injEq]
  omega

lemma dirIndexOf_lt {d : Tripoint} (h : manhattan d = 1) :
    dirIndexOf d < 6 := by
  rcases manhattan_one_cases h with rfl | rfl | rfl | rfl | rfl | rfl <;>
    decide

lemma sixDir_dirIndexOf {d : Tripoint} (h : manhattan d = 1) :
    sixDir (dirIndexOf d) = d := by
  rcases manhattan_one_cases h with rfl | rfl | rfl | rfl | rfl | rfl <;>
    decide

lemma manhattan_neg (d : Tripoint) : manhattan (-d) = manhattan d := by
  obtain ⟨x, y, z⟩ := d
  simp [manhattan, tp_neg]

lemma neg_neg_tp (d : Tripoint) : -(-d) = d := by
  obtain ⟨x, y, z⟩ := d
  simp [tp_neg]

/-- Reciprocal direction index: the slot of the edge seen from the other
endpoint. -/
def oppIdx (i : Nat) : Nat := dirIndexOf (-(sixDir i))

lemma oppIdx_lt_all : ∀ i, i < 6 → oppIdx i < 6 := by decide

lemma oppIdx_lt {i : Nat} (h : i < 6) : oppIdx i < 6 := oppIdx_lt_all i h

lemma sixDir_oppIdx_all : ∀ i, i < 6 → sixDir (oppIdx i) = -(sixDir i) := by
  decide

lemma sixDir_oppIdx {i : Nat} (h : i < 6) :
    sixDir (oppIdx i) = -(sixDir i) := sixDir_oppIdx_all i h

lemma oppIdx_oppIdx_all : ∀ i, i < 6 → oppIdx (oppIdx i) = i := by decide

lemma oppIdx_oppIdx {i : Nat} (h : i < 6) : oppIdx (oppIdx i) = i :=
  oppIdx_oppIdx_all i h

lemma add_sixDir_oppIdx (p : Tripoint) {i : Nat} (h : i < 6) :
    p + sixDir i + sixDir (oppIdx i) = p := by
  rw [sixDir_oppIdx h]
  obtain ⟨x, y, z⟩ := p
  obtain ⟨a, b, c⟩ := sixDir i
  simp only [tp_add, tp_neg, Tripoint.mk.injEq]
  omega

lemma storeGet_storeSet_same (s : ConnStore) (p : Tripoint) (b : ConnBitset) :
    storeGet (storeSet s p b) p = b := by
  induction s with
  | nil => simp [storeSet, storeGet]
  | cons e rest ih =>
    obtain ⟨q, c⟩ := e
    by_cases hq : q = p
    · simp [storeSet, storeGet, hq]
    · simp [storeSet, storeGet, hq, ih]

lemma storeGet_storeSet_other (s : ConnStore) {p q : Tripoint}
    (b : ConnBitset) (h : q ≠ p) :
    storeGet (storeSet s p b) q = storeGet s q := by
  induction s with
  | nil =>
    simp only [storeSet, storeGet]
    rw [if_neg (fun he => h he.symm)]
  | cons e rest ih =>
    obtain ⟨w, c⟩ := e
    by_cases hw : w = p
    · subst hw
      simp only [storeSet, if_pos rfl, storeGet]
      rw [if_neg (fun he => h he.symm), if_neg (fun he => h he.symm)]
    · simp only [storeSet, if_neg hw, storeGet]
      by_cases hwq : w = q
      · rw [if_pos hwq, if_pos hwq]
      · rw [if_neg hwq, if_neg hwq, ih]

lemma bitTest_setBit (s : ConnStore) (p : Tripoint) (i : Nat) (v : Bool)
    (q : Tripoint) (j : Nat) :
    bitTest (setBit s p i v) q j =
      if q = p ∧ j = i then v else bitTest s q j := by
  by_cases hq : q = p
  · subst hq
    rw [bitTest, setBit, storeGet_storeSet_same]
    by_cases hj : j = i
    · rw [if_pos hj, if_pos ⟨rfl, hj⟩]
    · rw [if_neg hj, if_neg (fun hc => hj hc.2)]
      rfl
  · rw [bitTest, setBit, storeGet_storeSet_other _ _ hq,
      if_neg (fun hc => hq hc.1)]
    rfl

/-- Characterisation of the store-level add: success condition, failure
frame, and the store produced on success. -/
lemma addConnPure_spec (s : ConnStore) (lhs rhs : Tripoint) :
    ((addConnPure s lhs rhs).2 = true ↔
      (omtToOmXY lhs = omtToOmXY rhs ∧ manhattan (rhs - lhs) = 1 ∧
        ¬(bitTest s lhs (dirIndexOf (rhs - lhs)) = true ∧
          bitTest s rhs (dirIndexOf (-(rhs - lhs))) = true))) ∧
    ((addConnPure s lhs rhs).2 = false → (addConnPure s lhs rhs).1 = s) ∧
    ((addConnPure s lhs rhs).2 = true → (addConnPure s lhs rhs).1 =
      setBit (setBit s lhs (dirIndexOf (rhs - lhs)) true) rhs
        (dirIndexOf (-(rhs - lhs))) true) := by
  rw [addConnPure]
  by_cases h1 : omtToOmXY lhs ≠ omtToOmXY rhs
  · rw [if_pos h1]
    refine ⟨?_, fun _ => rfl, fun hc => Bool.noConfusion hc⟩
    simp only [Bool.false_eq_true, false_iff]
    rintro ⟨he, -⟩
    exact h1 he
  · rw [if_neg h1]
    push_neg at h1
    by_cases h2 : manhattan (rhs - lhs) ≠ 1
    · rw [if_pos h2]
      refine ⟨?_, fun _ => rfl, fun hc => Bool.noConfusion hc⟩
      simp only [Bool.false_eq_true, false_iff]
      rintro ⟨-, hm, -⟩
      exact h2 hm
    · rw [if_neg h2]
      push_neg at h2
      by_cases h3 : bitTest s lhs (dirIndexOf (rhs - lhs)) = true ∧
          bitTest s rhs (dirIndexOf (-(rhs - lhs))) = true
      · rw [if_pos h3]
        refine ⟨?_, fun _ => rfl, fun hc => Bool.noConfusion hc⟩
        simp only [Bool.false_eq_true, false_iff]
        rintro ⟨-, -, hb⟩
        exact hb h3
      · rw [if_neg h3]
        exact ⟨by simp [h1, h2, h3], fun hc => Bool.noConfusion hc,
          fun _ => rfl⟩

/-- Characterisation of the store-level remove: no region validation,
rejection when neither bit is set, and the store produced on success. -/
lemma removeConnPure_spec (s : ConnStore) (lhs rhs : Tripoint) :
    ((removeConnPure s lhs rhs).2 = true ↔
      (manhattan (rhs - lhs) = 1 ∧
        ¬(bitTest s lhs (dirIndexOf (rhs - lhs)) = false ∧
          bitTest s rhs (dirIndexOf (-(rhs - lhs))) = false))) ∧
    ((removeConnPure s lhs rhs).2 = false →
      (removeConnPure s lhs rhs).1 = s) ∧
    ((removeConnPure s lhs rhs).2 = true → (removeConnPure s lhs rhs).1 =
      setBit (setBit s lhs (dirIndexOf (rhs - lhs)) false) rhs
        (dirIndexOf (-(rhs - lhs))) false) := by
  rw [removeConnPure]
  by_cases h2 : manhattan (rhs - lhs) ≠ 1
  · rw [if_pos h2]
    refine ⟨?_, fun _ => rfl, fun hc => Bool.noConfusion hc⟩
    simp only [Bool.false_eq_true, false_iff]
    rintro ⟨hm, -⟩
    exact h2 hm
  · rw [if_neg h2]
    push_neg at h2
    by_cases h3 : bitTest s lhs (dirIndexOf (rhs - lhs)) = false ∧
        bitTest s rhs (dirIndexOf (-(rhs - lhs))) = false
    · rw [if_pos h3]
      refine ⟨?_, fun _ => rfl, fun hc => Bool.noConfusion hc⟩
      simp only [Bool.false_eq_true, false_iff]
      rintro ⟨-, hb⟩
      exact hb h3
    · rw [if_neg h3]
      exact ⟨by simp [h2, h3], fun hc => Bool.noConfusion hc, fun _ => rfl⟩

lemma on_structure_changed_store (st : SysState) (p : Tripoint) :
    (on_structure_changed st p).store = st.store := rfl

lemma add_grid_connection_store (st : SysState) (lhs rhs : Tripoint) :
    (add_grid_connection st lhs rhs).1.store =
      (addConnPure st.store lhs rhs).1 ∧
    (add_grid_connection st lhs rhs).2 = (addConnPure st.store lhs rhs).2 := by
  rw [add_grid_connection]
  by_cases h : (addConnPure st.store lhs rhs).2
  · rw [if_pos h]
    exact ⟨rfl, h.symm⟩
  · rw [if_neg h]
    have hf : (addConnPure st.store lhs rhs).2 = false := by simpa using h
    exact ⟨((addConnPure_spec st.store lhs rhs).2.1 hf).symm, hf.symm⟩

lemma remove_grid_connection_store (st : SysState) (lhs rhs : Tripoint) :
    (remove_grid_connection st lhs rhs).1.store =
      (removeConnPure st.store lhs rhs).1 ∧
    (remove_grid_connection st lhs rhs).2 =
      (removeConnPure st.store lhs rhs).2 := by
  rw [remove_grid_connection]
  by_cases h : (removeConnPure st.store lhs rhs).2
  · rw [if_pos h]
    exact ⟨rfl, h.symm⟩
  · rw [if_neg h]
    have hf : (removeConnPure st.store lhs rhs).2 = false := by simpa using h
    exact ⟨((removeConnPure_spec st.store lhs rhs).2.1 hf).symm, hf.symm⟩

/-! ### The symmetry invariant -/

/-- Every set bit has its reciprocal bit set on the neighbour. -/
def Symm (s : ConnStore) : Prop :=
  ∀ p i, i < 6 → bitTest s p i = true →
    bitTest s (p + sixDir i) (oppIdx i) = true

lemma Symm_empty : Symm [] := by
  intro p i _ h
  simp [bitTest, storeGet, emptyBitset] at h

lemma sub_add_cancel_tp (lhs rhs : Tripoint) : lhs + (rhs - lhs) = rhs := by
  obtain ⟨x, y, z⟩ := lhs
  obtain ⟨a, b, c⟩ := rhs
  simp only [tp_add, tp_sub, Tripoint.mk.injEq]
  omega

lemma add_neg_sub_tp (lhs rhs : Tripoint) : rhs + -(rhs - lhs) = lhs := by
  obtain ⟨x, y, z⟩ := lhs
  obtain ⟨a, b, c⟩ := rhs
  simp only [tp_add, tp_sub, tp_neg, Tripoint.mk.injEq]
  omega

lemma bitTest_double_set (s : ConnStore) (lhs rhs : Tripoint)
    (bi ri : Nat) (v : Bool) (q : Tripoint) (k : Nat) :
    bitTest (setBit (setBit s lhs bi v) rhs ri v) q k =
      if q = rhs ∧ k = ri then v
      else if q = lhs ∧ k = bi then v
      else bitTest s q k := by
  rw [bitTest_setBit, bitTest_setBit]

lemma addConnPure_symm {s : ConnStore} (hs : Symm s) (lhs rhs : Tripoint) :
    Symm (addConnPure s lhs rhs).1 := by
  by_cases hok : (addConnPure s lhs rhs).2 = true
  · obtain ⟨-, hman, -⟩ := (addConnPure_spec s lhs rhs).1.mp hok
    rw [(addConnPure_spec s lhs rhs).2.2 hok]
    have hmann : manhattan (-(rhs - lhs)) = 1 := by
      rw [manhattan_neg]
      exact hman
    have hdbi : sixDir (dirIndexOf (rhs - lhs)) = rhs - lhs :=
      sixDir_dirIndexOf hman
    have hdri : sixDir (dirIndexOf (-(rhs - lhs))) = -(rhs - lhs) :=
      sixDir_dirIndexOf hmann
    have hoppbi : oppIdx (dirIndexOf (rhs - lhs)) = dirIndexOf (-(rhs - lhs)) := by
      rw [oppIdx, hdbi]
    have hoppri : oppIdx (dirIndexOf (-(rhs - lhs))) = dirIndexOf (rhs - lhs) := by
      rw [oppIdx, hdri, neg_neg_tp]
    intro p j hj hbit
    rw [bitTest_double_set] at hbit
    rw [bitTest_double_set]
    by_cases hc1 : p = rhs ∧ j = dirIndexOf (-(rhs - lhs))
    · rw [hc1.1, hc1.2, hdri, add_neg_sub_tp, hoppri]
      by_cases h1 : lhs = rhs ∧
          dirIndexOf (rhs - lhs) = dirIndexOf (-(rhs - lhs))
      · rw [if_pos h1]
      · rw [if_neg h1, if_pos ⟨rfl, rfl⟩]
    · rw [if_neg hc1] at hbit
      by_cases hc2 : p = lhs ∧ j = dirIndexOf (rhs - lhs)
      · rw [hc2.1, hc2.2, hdbi, sub_add_cancel_tp, hoppbi,
          if_pos ⟨rfl, rfl⟩]
      · rw [if_neg hc2] at hbit
        have hpartner := hs p j hj hbit
        by_cases h1 : p + sixDir j = rhs ∧ oppIdx j = dirIndexOf (-(rhs - lhs))
        · rw [if_pos h1]
        · rw [if_neg h1]
          by_cases h2 : p + sixDir j = lhs ∧ oppIdx j = dirIndexOf (rhs - lhs)
          · rw [if_pos h2]
          · rw [if_neg h2]
            exact hpartner
  · have hf : (addConnPure s lhs rhs).2 = false := by simpa using hok
    rw [(addConnPure_spec s lhs rhs).2.1 hf]
    exact hs

lemma removeConnPure_symm {s : ConnStore} (hs : Symm s) (lhs rhs : Tripoint) :
    Symm (removeConnPure s lhs rhs).1 := by
  by_cases hok : (removeConnPure s lhs rhs).2 = true
  · obtain ⟨hman, -⟩ := (removeConnPure_spec s lhs rhs).1.mp hok
    rw [(removeConnPure_spec s lhs rhs).2.2 hok]
    have hmann : manhattan (-(rhs - lhs)) = 1 := by
      rw [manhattan_neg]
      exact hman
    have hdbi : sixDir (dirIndexOf (rhs - lhs)) = rhs - lhs :=
      sixDir_dirIndexOf hman
    have hdri : sixDir (dirIndexOf (-(rhs - lhs))) = -(rhs - lhs) :=
      sixDir_dirIndexOf hmann
    have hoppbi : oppIdx (dirIndexOf (rhs - lhs)) = dirIndexOf (-(rhs - lhs)) := by
      rw [oppIdx, hdbi]
    have hoppri : oppIdx (dirIndexOf (-(rhs - lhs))) = dirIndexOf (rhs - lhs) := by
      rw [oppIdx, hdri, neg_neg_tp]
    intro p j hj hbit
    rw [bitTest_double_set] at hbit
    rw [bitTest_double_set]
    by_cases hc1 : p = rhs ∧ j = dirIndexOf (-(rhs - lhs))
    · rw [if_pos hc1] at hbit
      cases hbit
    · rw [if_neg hc1] at hbit
      by_cases hc2 : p = lhs ∧ j = dirIndexOf (rhs - lhs)
      · rw [if_pos hc2] at hbit
        cases hbit
      · rw [if_neg hc2] at hbit
        have hpartner := hs p j hj hbit
        by_cases h1 : p + sixDir j = rhs ∧ oppIdx j = dirIndexOf (-(rhs - lhs))
        · exfalso
          apply hc2
          have hjeq : j = dirIndexOf (rhs - lhs) := by
            rw [← oppIdx_oppIdx hj, h1.2, hoppri]
          have hpeq : p = lhs := by
            have := add_sixDir_oppIdx p hj
            rw [h1.1, h1.2, hdri, add_neg_sub_tp] at this
            exact this.symm
          exact ⟨hpeq, hjeq⟩
        · rw [if_neg h1]
          by_cases h2 : p + sixDir j = lhs ∧ oppIdx j = dirIndexOf (rhs - lhs)
          · exfalso
            apply hc1
            have hjeq : j = dirIndexOf (-(rhs - lhs)) := by
              rw [← oppIdx_oppIdx hj, h2.2, hoppbi]
            have hpeq : p = rhs := by
              have := add_sixDir_oppIdx p hj
              rw [h2.1, h2.2, hdbi, sub_add_cancel_tp] at this
              exact this.symm
            exact ⟨hpeq, hjeq⟩
          · rw [if_neg h2]
            exact hpartner
  · have hf : (removeConnPure s lhs rhs).2 = false := by simpa using hok
    rw [(removeConnPure_spec s lhs rhs).2.1 hf]
    exact hs

lemma applyOp_symm {st : SysState} (hs : Symm st.store) (op : MutOp) :
    Symm (applyOp st op).store := by
  cases op with
  | addConn a b =>
    rw [applyOp, (add_grid_connection_store st a b).1]
    exact addConnPure_symm hs a b
  | removeConn a b =>
    rw [applyOp, (remove_grid_connection_store st a b).1]
    exact removeConnPure_symm hs a b

lemma applyOps_symm :
    ∀ (ops : List MutOp) (st : SysState), Symm st.store →
      Symm (applyOps st ops).store := by
  intro ops
  induction ops with
  | nil =>
    intro st hs
    exact hs
  | cons op rest ih =>
    intro st hs
    rw [applyOps, List.foldl_cons]
    exact ih _ (applyOp_symm hs op)

/-! ### Projection and tracker lemmas -/

lemma msToSm_omtToMs (p : Tripoint) : msToSm (omtToMs p) = omtToSm p := by
  obtain ⟨x, y, z⟩ := p
  simp only [msToSm, omtToMs, omtToSm, Tripoint.mk.injEq]
  refine ⟨?_, ?_, trivial⟩
  · have h : (24 : Int) * x = 12 * (2 * x) := by ring
    rw [h, Int.mul_fdiv_cancel_left _ (by norm_num)]
  · have h : (24 : Int) * y = 12 * (2 * y) := by ring
    rw [h, Int.mul_fdiv_cancel_left _ (by norm_num)]

lemma smToOmt_omtToSm (p : Tripoint) : smToOmt (omtToSm p) = p := by
  obtain ⟨x, y, z⟩ := p
  simp only [smToOmt, omtToSm, Tripoint.mk.injEq]
  exact ⟨Int.mul_fdiv_cancel_left _ (by norm_num),
    Int.mul_fdiv_cancel_left _ (by norm_num), trivial⟩

lemma mem_submapsOfComponent_base {comp : List Tripoint} {p : Tripoint}
    (h : p ∈ comp) : omtToSm p ∈ submapsOfComponent comp := by
  rw [submapsOfComponent, List.mem_flatMap]
  exact ⟨p, h, by simp⟩

lemma idxGet_idxSet (idx : List (Tripoint × Nat)) (q : Tripoint) (i : Nat)
    (p : Tripoint) :
    idxGet (idxSet idx q i) p = if q = p then some i else idxGet idx p := by
  induction idx with
  | nil => rfl
  | cons e rest ih =>
    obtain ⟨w, k⟩ := e
    by_cases hw : w = q
    · subst hw
      rw [idxSet, if_pos rfl, idxGet]
      by_cases hp : w = p
      · rw [if_pos hp, if_pos hp]
      · rw [if_neg hp, if_neg hp, idxGet]
        rw [if_neg hp]
    · rw [idxSet, if_neg hw, idxGet]
      by_cases hp : w = p
      · rw [if_pos hp, if_neg (fun he => hw (hp.trans he.symm)), idxGet,
          if_pos hp]
      · rw [if_neg hp, ih, idxGet, if_neg hp]

lemma idxGet_idxSetMany (idx : List (Tripoint × Nat)) (ps : List Tripoint)
    (i : Nat) (p : Tripoint) :
    idxGet (idxSetMany idx ps i) p =
      if p ∈ ps then some i else idxGet idx p := by
  induction ps generalizing idx with
  | nil => simp [idxSetMany]
  | cons q ps ih =>
    rw [idxSetMany, List.foldl_cons]
    rw [show (List.foldl (fun a p => idxSet a p i) (idxSet idx q i) ps) =
      idxSetMany (idxSet idx q i) ps i from rfl, ih]
    by_cases hps : p ∈ ps
    · rw [if_pos hps, if_pos (List.mem_cons_of_mem _ hps)]
    · rw [if_neg hps, idxGet_idxSet]
      by_cases hq : q = p
      · rw [if_pos hq, if_pos (by rw [hq]; simp)]
      · rw [if_neg hq, if_neg (by
          intro hc
          rcases List.mem_cons.mp hc with rfl | hc
          · exact hq rfl
          · exact hps hc)]

lemma getD_append_self {α : Type} (l : List α) (g d : α) :
    (l ++ [g]).getD l.length d = g := by
  induction l with
  | nil => rfl
  | cons a l ih => simpa [List.getD] using ih

lemma submapsOfComponent_isEmpty (s : ConnStore) (p : Tripoint) :
    (submapsOfComponent (grid_at s p)).isEmpty = false := by
  have hm := mem_submapsOfComponent_base (self_mem_grid_at s p)
  cases hc : submapsOfComponent (grid_at s p) with
  | nil =>
    rw [hc] at hm
    cases hm
  | cons a l => rfl

/-- `make_storage_grid_at` at the submap of an omt cell: the dead empty
branch is skipped because the component contains its seed, so a fresh
grid is appended to the arena and every submap of the component is
remapped to it. -/
lemma makeStorageGridAt_result (t : Tracker) (s : ConnStore)
    (mb : Mapbuffer) (p : Tripoint) :
    t.makeStorageGridAt s mb (omtToSm p) =
      (⟨t.arena ++ [mkStorageGrid (submapsOfComponent (grid_at s p)) mb],
        idxSetMany t.index (submapsOfComponent (grid_at s p))
          t.arena.length⟩, some t.arena.length) := by
  rw [Tracker.makeStorageGridAt, smToOmt_omtToSm]
  simp only [submapsOfComponent_isEmpty, Bool.false_eq_true, if_false]

lemma on_structure_changed_mb (st : SysState) (p : Tripoint) :
    (on_structure_changed st p).mb = st.mb := rfl

lemma add_grid_connection_mb (st : SysState) (lhs rhs : Tripoint) :
    (add_grid_connection st lhs rhs).1.mb = st.mb := by
  rw [add_grid_connection]
  by_cases h : (addConnPure st.store lhs rhs).2
  · rw [if_pos h]
    rfl
  · rw [if_neg h]

lemma remove_grid_connection_mb (st : SysState) (lhs rhs : Tripoint) :
    (remove_grid_connection st lhs rhs).1.mb = st.mb := by
  rw [remove_grid_connection]
  by_cases h : (removeConnPure st.store lhs rhs).2
  · rw [if_pos h]
    rfl
  · rw [if_neg h]

lemma add_grid_connection_tracker (st : SysState) (lhs rhs : Tripoint)
    (hok : (addConnPure st.store lhs rhs).2 = true) :
    (add_grid_connection st lhs rhs).1.tracker =
      ((st.tracker.makeStorageGridAt (addConnPure st.store lhs rhs).1
          st.mb (omtToSm lhs)).1.makeStorageGridAt
        (addConnPure st.store lhs rhs).1 st.mb (omtToSm rhs)).1 := by
  rw [add_grid_connection, if_pos hok, on_structure_changed,
    on_structure_changed, msToSm_omtToMs, msToSm_omtToMs]

lemma remove_grid_connection_tracker (st : SysState) (lhs rhs : Tripoint)
    (hok : (removeConnPure st.store lhs rhs).2 = true) :
    (remove_grid_connection st lhs rhs).1.tracker =
      ((st.tracker.makeStorageGridAt (removeConnPure st.store lhs rhs).1
          st.mb (omtToSm lhs)).1.makeStorageGridAt
        (removeConnPure st.store lhs rhs).1 st.mb (omtToSm rhs)).1 := by
  rw [remove_grid_connection, if_pos hok, on_structure_changed,
    on_structure_changed, msToSm_omtToMs, msToSm_omtToMs]

/-! ### Concrete scenario material shared by witnesses -/

/-- A mapbuffer with no resident submaps. -/
def mbNone : Mapbuffer := fun _ => none

def ptA : Tripoint := ⟨0, 0, 0⟩

def ptB : Tripoint := ⟨1, 0, 0⟩

/-- A store holding only one half of an edge (an asymmetric state the
Mutation API itself never produces): `ptA`'s bit toward `ptB`. -/
def asymStore : ConnStore := setBit [] ptA 1 true

def asymState : SysState := ⟨asymStore, ⟨[], []⟩, mbNone⟩

/-- On a successful add both reciprocal bits are set afterwards. -/
lemma add_success_bits (st : SysState) (a b : Tripoint)
    (hok : (add_grid_connection st a b).2 = true) :
    bitTest (add_grid_connection st a b).1.store a
      (dirIndexOf (b - a)) = true ∧
    bitTest (add_grid_connection st a b).1.store b
      (dirIndexOf (-(b - a))) = true := by
  rw [(add_grid_connection_store st a b).2] at hok
  rw [(add_grid_connection_store st a b).1,
    (addConnPure_spec st.store a b).2.2 hok]
  constructor
  · rw [bitTest_double_set]
    by_cases h1 : a = b ∧ dirIndexOf (b - a) = dirIndexOf (-(b - a))
    · rw [if_pos h1]
    · rw [if_neg h1, if_pos ⟨rfl, rfl⟩]
  · rw [bitTest_double_set, if_pos ⟨rfl, rfl⟩]

/-- On a successful remove both reciprocal bits are clear afterwards. -/
lemma remove_success_bits (st : SysState) (a b : Tripoint)
    (hok : (remove_grid_connection st a b).2 = true) :
    bitTest (remove_grid_connection st a b).1.store a
      (dirIndexOf (b - a)) = false ∧
    bitTest (remove_grid_connection st a b).1.store b
      (dirIndexOf (-(b - a))) = false := by
  rw [(remove_grid_connection_store st a b).2] at hok
  rw [(remove_grid_connection_store st a b).1,
    (removeConnPure_spec st.store a b).2.2 hok]
  constructor
  · rw [bitTest_double_set]
    by_cases h1 : a = b ∧ dirIndexOf (b - a) = dirIndexOf (-(b - a))
    · rw [if_pos h1]
    · rw [if_neg h1, if_pos ⟨rfl, rfl⟩]
  · rw [bitTest_double_set, if_pos ⟨rfl, rfl⟩]

/-! ### Claim theorems: the mutation API and the traversal -/

/-- Claim C1: starting from the empty adjacency store, every sequence of
Mutation API calls keeps every cell's bitset symmetric; moreover whenever
`add_grid_connection` succeeds both direction bits of the pair are set
afterwards, and whenever `remove_grid_connection` succeeds both are
clear — so no operation ever leaves exactly one side of an edge set. -/
theorem claim_C1 :
    (∀ (mb : Mapbuffer) (ops : List MutOp),
      Symm ((applyOps (initState mb) ops).store)) ∧
    (∀ (st : SysState) (a b : Tripoint),
      (add_grid_connection st a b).2 = true →
        bitTest (add_grid_connection st a b).1.store a
          (dirIndexOf (b - a)) = true ∧
        bitTest (add_grid_connection st a b).1.store b
          (dirIndexOf (-(b - a))) = true) ∧
    (∀ (st : SysState) (a b : Tripoint),
      (remove_grid_connection st a b).2 = true →
        bitTest (remove_grid_connection st a b).1.store a
          (dirIndexOf (b - a)) = false ∧
        bitTest (remove_grid_connection st a b).1.store b
          (dirIndexOf (-(b - a))) = false) := by
  exact ⟨fun mb ops => applyOps_symm ops (initState mb) Symm_empty,
    add_success_bits, remove_success_bits⟩

theorem claim_C1_witness :
    Symm ((applyOps (initState mbNone) [MutOp.addConn ptA ptB]).store) ∧
    bitTest (add_grid_connection (initState mbNone) ptA ptB).1.store ptA
      (dirIndexOf (ptB - ptA)) = true :=
  ⟨claim_C1.1 mbNone [MutOp.addConn ptA ptB],
    (claim_C1.2.1 (initState mbNone) ptA ptB (by decide)).1⟩

/-- Claim C2: `grid_at(p)` contains `p`, is closed under set adjacency
bits, and consists exactly of the cells reachable from `p`. -/
theorem claim_C2 (s : ConnStore) (p : Tripoint) :
    p ∈ grid_at s p ∧
    (∀ c ∈ grid_at s p, ∀ i, i < 6 → bitTest s c i = true →
      c + sixDir i ∈ grid_at s p) ∧
    (∀ c, c ∈ grid_at s p ↔ Reachable s p c) := by
  refine ⟨self_mem_grid_at s p, ?_, fun c => mem_grid_at_iff⟩
  intro c hc i hi hb
  exact mem_grid_at_iff.mpr
    (Reachable.step i hi (mem_grid_at_iff.mp hc) hb)

theorem claim_C2_witness : ptA ∈ grid_at [] ptA :=
  (claim_C2 [] ptA).1

/-- Claim C3: `add_grid_connection` succeeds exactly when the two cells
lie on the same overmap column/row, are orthogonally adjacent, and do not
already have both direction bits set; failure leaves the whole state
untouched; success sets exactly the two reciprocal bits, leaves the
mapbuffer alone, and rebuilds the storage group at both endpoints —
both endpoints' submaps end up indexed to one shared fresh group derived
from the updated adjacency store.  (Validation failures are ordinary
boolean returns; the embedding is a total function, mirroring the
exception-free C++ paths.) -/
theorem claim_C3 (st : SysState) (lhs rhs : Tripoint) :
    ((add_grid_connection st lhs rhs).2 = true ↔
      (omtToOmXY lhs = omtToOmXY rhs ∧ manhattan (rhs - lhs) = 1 ∧
        ¬(bitTest st.store lhs (dirIndexOf (rhs - lhs)) = true ∧
          bitTest st.store rhs (dirIndexOf (-(rhs - lhs))) = true))) ∧
    ((add_grid_connection st lhs rhs).2 = false →
      (add_grid_connection st lhs rhs).1 = st) ∧
    ((add_grid_connection st lhs rhs).2 = true →
      bitTest (add_grid_connection st lhs rhs).1.store lhs
        (dirIndexOf (rhs - lhs)) = true ∧
      bitTest (add_grid_connection st lhs rhs).1.store rhs
        (dirIndexOf (-(rhs - lhs))) = true ∧
      (∀ q k, ¬(q = rhs ∧ k = dirIndexOf (-(rhs - lhs))) →
        ¬(q = lhs ∧ k = dirIndexOf (rhs - lhs)) →
        bitTest (add_grid_connection st lhs rhs).1.store q k =
          bitTest st.store q k) ∧
      (add_grid_connection st lhs rhs).1.mb = st.mb ∧
      (∃ j, idxGet (add_grid_connection st lhs rhs).1.tracker.index
          (omtToSm lhs) = some j ∧
        idxGet (add_grid_connection st lhs rhs).1.tracker.index
          (omtToSm rhs) = some j ∧
        ((add_grid_connection st lhs rhs).1.tracker.arena.getD j
          emptyStorageGrid) =
          mkStorageGrid (submapsOfComponent
            (grid_at (add_grid_connection st lhs rhs).1.store rhs))
            st.mb ∧
        ((add_grid_connection st lhs rhs).1.tracker.arena.getD j
          emptyStorageGrid).cached_stats = none)) := by
  have hsys := add_grid_connection_store st lhs rhs
  have hspec := addConnPure_spec st.store lhs rhs
  refine ⟨by rw [hsys.2]; exact hspec.1, ?_, ?_⟩
  · intro hf
    rw [add_grid_connection, if_neg (by rw [hsys.2] at hf; simp [hf])]
  · intro hok
    rw [hsys.2] at hok
    obtain ⟨hreg, hman, hnb⟩ := hspec.1.mp hok
    have hmann : manhattan (-(rhs - lhs)) = 1 := by
      rw [manhattan_neg]
      exact hman
    have hstore : (add_grid_connection st lhs rhs).1.store =
        setBit (setBit st.store lhs (dirIndexOf (rhs - lhs)) true) rhs
          (dirIndexOf (-(rhs - lhs))) true := by
      rw [hsys.1, hspec.2.2 hok]
    refine ⟨?_, ?_, ?_, add_grid_connection_mb st lhs rhs, ?_⟩
    · rw [hstore, bitTest_double_set]
      by_cases h1 : lhs = rhs ∧
          dirIndexOf (rhs - lhs) = dirIndexOf (-(rhs - lhs))
      · rw [if_pos h1]
      · rw [if_neg h1, if_pos ⟨rfl, rfl⟩]
    · rw [hstore, bitTest_double_set, if_pos ⟨rfl, rfl⟩]
    · intro q k h1 h2
      rw [hstore, bitTest_double_set, if_neg h1, if_neg h2]
    · -- the rebuilt shared storage group
      have hbri : bitTest (addConnPure st.store lhs rhs).1 rhs
          (dirIndexOf (-(rhs - lhs))) = true := by
        rw [hspec.2.2 hok, bitTest_double_set, if_pos ⟨rfl, rfl⟩]
      have hreach : Reachable (addConnPure st.store lhs rhs).1 rhs lhs := by
        have h0 := Reachable.step (s := (addConnPure st.store lhs rhs).1)
          (dirIndexOf (-(rhs - lhs))) (dirIndexOf_lt hmann)
          (Reachable.refl rhs) hbri
        rwa [sixDir_dirIndexOf hmann, add_neg_sub_tp] at h0
      have hlmem : omtToSm lhs ∈ submapsOfComponent
          (grid_at (addConnPure st.store lhs rhs).1 rhs) :=
        mem_submapsOfComponent_base (mem_grid_at_iff.mpr hreach)
      have hrmem : omtToSm rhs ∈ submapsOfComponent
          (grid_at (addConnPure st.store lhs rhs).1 rhs) :=
        mem_submapsOfComponent_base
          (self_mem_grid_at (addConnPure st.store lhs rhs).1 rhs)
      refine ⟨st.tracker.arena.length + 1, ?_⟩
      rw [add_grid_connection_tracker st lhs rhs hok, hstore,
        ← hspec.2.2 hok, makeStorageGridAt_result, makeStorageGridAt_result]
      simp only [List.length_append, List.length_cons, List.length_nil]
      have hgd := getD_append_self (st.tracker.arena ++
          [mkStorageGrid (submapsOfComponent
            (grid_at (addConnPure st.store lhs rhs).1 lhs)) st.mb])
          (mkStorageGrid (submapsOfComponent
            (grid_at (addConnPure st.store lhs rhs).1 rhs)) st.mb)
          emptyStorageGrid
      simp only [List.length_append, List.length_cons, List.length_nil]
        at hgd
      refine ⟨?_, ?_, hgd, by rw [hgd]; rfl⟩
      · rw [idxGet_idxSetMany, if_pos hlmem]
      · rw [idxGet_idxSetMany, if_pos hrmem]

theorem claim_C3_witness :
    (add_grid_connection (initState mbNone) ptA ptA).1 = initState mbNone :=
  (claim_C3 (initState mbNone) ptA ptA).2.1 (by decide)

/-- Claim C10 (implicit): a pair that passes region and adjacency
validation and has exactly one of the two direction bits set is accepted
by `add_grid_connection` — the duplicate-edge rejection requires both
bits — and afterwards both bits are set, restoring symmetry. -/
theorem claim_C10 (st : SysState) (a b : Tripoint)
    (hreg : omtToOmXY a = omtToOmXY b) (hman : manhattan (b - a) = 1)
    (hx : bitTest st.store a (dirIndexOf (b - a)) ≠
      bitTest st.store b (dirIndexOf (-(b - a)))) :
    (add_grid_connection st a b).2 = true ∧
    bitTest (add_grid_connection st a b).1.store a
      (dirIndexOf (b - a)) = true ∧
    bitTest (add_grid_connection st a b).1.store b
      (dirIndexOf (-(b - a))) = true := by
  have hok : (add_grid_connection st a b).2 = true := by
    rw [(add_grid_connection_store st a b).2]
    refine (addConnPure_spec st.store a b).1.mpr ⟨hreg, hman, ?_⟩
    rintro ⟨h1, h2⟩
    rw [h1, h2] at hx
    exact hx rfl
  exact ⟨hok, add_success_bits st a b hok⟩

theorem claim_C10_witness :
    (add_grid_connection asymState ptA ptB).2 = true ∧
    bitTest (add_grid_connection asymState ptA ptB).1.store ptA
      (dirIndexOf (ptB - ptA)) = true ∧
    bitTest (add_grid_connection asymState ptA ptB).1.store ptB
      (dirIndexOf (-(ptB - ptA))) = true :=
  claim_C10 asymState ptA ptB (by decide) (by decide) (by decide)

/-! ### Claim C4: remove_grid_connection -/

def ptL : Tripoint := ⟨179, 0, 0⟩

def ptR : Tripoint := ⟨180, 0, 0⟩

/-- A store holding a (symmetric) edge across the overmap boundary
between `ptL` and `ptR` — a state `add_grid_connection` refuses to build,
but one `remove_grid_connection` happily operates on. -/
def crossStore : ConnStore := setBit (setBit [] ptL 1 true) ptR 3 true

def crossState : SysState := ⟨crossStore, ⟨[], []⟩, mbNone⟩

/-- Counterexample to claim C4 as stated: `remove_grid_connection`
performs no cross-region validation.  On the orthogonally-adjacent pair
`(179,0,0)`/`(180,0,0)`, which lies on two different overmaps, with the
edge bits set, the call returns success (and mutates state) instead of
the claimed boolean failure with no state change. -/
theorem claim_C4_counterexample :
    omtToOmXY ptL ≠ omtToOmXY ptR ∧
    (remove_grid_connection crossState ptL ptR).2 = true := by
  constructor
  · decide
  · rw [(remove_grid_connection_store crossState ptL ptR).2]
    decide

/-- Claim C4 (amended): `remove_grid_connection` validates only
orthogonal adjacency — it has no cross-region check, so an adjacent pair
spanning two overmaps is processed normally.  It fails, leaving the whole
state untouched, when the pair is not orthogonally adjacent or when
neither direction bit is set; otherwise it clears both bits, leaves the
mapbuffer alone, and rebuilds the storage groups at both endpoints (both
endpoints' submaps end up indexed, the second endpoint to a fresh group
derived from the updated adjacency store). -/
theorem claim_C4 (st : SysState) (lhs rhs : Tripoint) :
    ((remove_grid_connection st lhs rhs).2 = true ↔
      (manhattan (rhs - lhs) = 1 ∧
        ¬(bitTest st.store lhs (dirIndexOf (rhs - lhs)) = false ∧
          bitTest st.store rhs (dirIndexOf (-(rhs - lhs))) = false))) ∧
    ((remove_grid_connection st lhs rhs).2 = false →
      (remove_grid_connection st lhs rhs).1 = st) ∧
    ((remove_grid_connection st lhs rhs).2 = true →
      bitTest (remove_grid_connection st lhs rhs).1.store lhs
        (dirIndexOf (rhs - lhs)) = false ∧
      bitTest (remove_grid_connection st lhs rhs).1.store rhs
        (dirIndexOf (-(rhs - lhs))) = false ∧
      (∀ q k, ¬(q = rhs ∧ k = dirIndexOf (-(rhs - lhs))) →
        ¬(q = lhs ∧ k = dirIndexOf (rhs - lhs)) →
        bitTest (remove_grid_connection st lhs rhs).1.store q k =
          bitTest st.store q k) ∧
      (remove_grid_connection st lhs rhs).1.mb = st.mb ∧
      (∃ j, idxGet (remove_grid_connection st lhs rhs).1.tracker.index
          (omtToSm rhs) = some j ∧
        ((remove_grid_connection st lhs rhs).1.tracker.arena.getD j
          emptyStorageGrid) =
          mkStorageGrid (submapsOfComponent
            (grid_at (remove_grid_connection st lhs rhs).1.store rhs))
            st.mb ∧
        ((remove_grid_connection st lhs rhs).1.tracker.arena.getD j
          emptyStorageGrid).cached_stats = none) ∧
      (idxGet (remove_grid_connection st lhs rhs).1.tracker.index
        (omtToSm lhs)).isSome = true) := by
  have hsys := remove_grid_connection_store st lhs rhs
  have hspec := removeConnPure_spec st.store lhs rhs
  refine ⟨by rw [hsys.2]; exact hspec.1, ?_, ?_⟩
  · intro hf
    rw [remove_grid_connection, if_neg (by rw [hsys.2] at hf; simp [hf])]
  · intro hok
    rw [hsys.2] at hok
    have hstore : (remove_grid_connection st lhs rhs).1.store =
        setBit (setBit st.store lhs (dirIndexOf (rhs - lhs)) false) rhs
          (dirIndexOf (-(rhs - lhs))) false := by
      rw [hsys.1, hspec.2.2 hok]
    refine ⟨?_, ?_, ?_, remove_grid_connection_mb st lhs rhs, ?_, ?_⟩
    · rw [hstore, bitTest_double_set]
      by_cases h1 : lhs = rhs ∧
          dirIndexOf (rhs - lhs) = dirIndexOf (-(rhs - lhs))
      · rw [if_pos h1]
      · rw [if_neg h1, if_pos ⟨rfl, rfl⟩]
    · rw [hstore, bitTest_double_set, if_pos ⟨rfl, rfl⟩]
    · intro q k h1 h2
      rw [hstore, bitTest_double_set, if_neg h1, if_neg h2]
    · have hrmem : omtToSm rhs ∈ submapsOfComponent
          (grid_at (removeConnPure st.store lhs rhs).1 rhs) :=
        mem_submapsOfComponent_base
          (self_mem_grid_at (removeConnPure st.store lhs rhs).1 rhs)
      refine ⟨st.tracker.arena.length + 1, ?_⟩
      rw [remove_grid_connection_tracker st lhs rhs hok, hstore,
        ← hspec.2.2 hok, makeStorageGridAt_result, makeStorageGridAt_result]
      simp only [List.length_append, List.length_cons, List.length_nil]
      have hgd := getD_append_self (st.tracker.arena ++
          [mkStorageGrid (submapsOfComponent
            (grid_at (removeConnPure st.store lhs rhs).1 lhs)) st.mb])
          (mkStorageGrid (submapsOfComponent
            (grid_at (removeConnPure st.store lhs rhs).1 rhs)) st.mb)
          emptyStorageGrid
      simp only [List.length_append, List.length_cons, List.length_nil]
        at hgd
      refine ⟨?_, hgd, by rw [hgd]; rfl⟩
      rw [idxGet_idxSetMany, if_pos hrmem]
    · have hlmem : omtToSm lhs ∈ submapsOfComponent
          (grid_at (removeConnPure st.store lhs rhs).1 lhs) :=
        mem_submapsOfComponent_base
          (self_mem_grid_at (removeConnPure st.store lhs rhs).1 lhs)
      rw [remove_grid_connection_tracker st lhs rhs hok,
        makeStorageGridAt_result, makeStorageGridAt_result]
      rw [idxGet_idxSetMany]
      by_cases hin2 : omtToSm lhs ∈ submapsOfComponent
          (grid_at (removeConnPure st.store lhs rhs).1 rhs)
      · rw [if_pos hin2]
        rfl
      · rw [if_neg hin2, idxGet_idxSetMany, if_pos hlmem]
        rfl

/-- A symmetric single-edge store between `ptA` and `ptB`. -/
def edgeState : SysState :=
  ⟨setBit (setBit [] ptA 1 true) ptB 3 true, ⟨[], []⟩, mbNone⟩

theorem claim_C4_witness :
    bitTest (remove_grid_connection edgeState ptA ptB).1.store ptA
      (dirIndexOf (ptB - ptA)) = false :=
  ((claim_C4 edgeState ptA ptB).2.2 (by
    rw [(remove_grid_connection_store edgeState ptA ptB).2]
    decide)).1

/-! ### Claim C9: termination and visit counts of the flood fill -/

def ptC : Tripoint := ⟨0, 1, 0⟩

def ptD : Tripoint := ⟨1, 1, 0⟩

/-- A 4-cycle `ptA–ptB`, `ptA–ptC`, `ptB–ptD`, `ptC–ptD` with all bits
symmetric (exactly the state four successful `add_grid_connection` calls
produce). -/
def cycStore : ConnStore :=
  setBit (setBit (setBit (setBit (setBit (setBit (setBit (setBit []
    ptA 1 true) ptB 3 true) ptA 2 true) ptC 0 true)
    ptB 2 true) ptD 0 true) ptC 1 true) ptD 3 true

/-- Counterexample to claim C9 as stated: in the 4-cycle, cell `ptD` is
enqueued by both `ptB` and `ptC` before it is first processed, so the
loop dequeues and processes it twice — reachable cells are not visited
exactly once. -/
theorem claim_C9_counterexample :
    ptD ∈ grid_at cycStore ptA ∧
    (grid_at_trace cycStore ptA).count ptD = 2 := by
  have h1 : visitInsert ptA [] = [ptA] := by decide
  have p1 : pushesOf cycStore [ptA] ptA = [ptB, ptC] := by decide
  have h2 : visitInsert ptB [ptA] = [ptB, ptA] := by decide
  have p2 : pushesOf cycStore [ptB, ptA] ptB = [ptD] := by decide
  have h3 : visitInsert ptC [ptB, ptA] = [ptC, ptB, ptA] := by decide
  have p3 : pushesOf cycStore [ptC, ptB, ptA] ptC = [ptD] := by decide
  have h4 : visitInsert ptD [ptC, ptB, ptA] = [ptD, ptC, ptB, ptA] := by
    decide
  have p4 : pushesOf cycStore [ptD, ptC, ptB, ptA] ptD = [] := by decide
  have h5 : visitInsert ptD [ptD, ptC, ptB, ptA] = [ptD, ptC, ptB, ptA] := by
    decide
  simp only [grid_at, grid_at_trace, gridAtRun, bfsLoopT, h1, p1, h2, p2,
    h3, p3, h4, p4, h5, List.nil_append, List.append_nil, List.cons_append,
    List.singleton_append]
  decide

/-- Claim C9 (amended): the flood fill terminates for every seed and
store — witnessed by the totality of `bfsLoopT`, whose well-founded
measure is exactly the statement that the frontier empties — and every
reachable cell is dequeued and processed at least once; the result set
still lists every reachable cell exactly once, but a cell may be dequeued
more than once (see the 4-cycle counterexample). -/
theorem claim_C9 (s : ConnStore) (p : Tripoint) :
    (∀ c, Reachable s p c → c ∈ grid_at_trace s p) ∧
    (grid_at s p).Nodup ∧
    (∀ c, c ∈ grid_at s p → c ∈ grid_at_trace s p) := by
  exact ⟨fun c hr => grid_at_subset_trace (mem_grid_at_iff.mpr hr),
    grid_at_nodup s p,
    fun c hc => grid_at_subset_trace hc⟩

theorem claim_C9_witness : ptA ∈ grid_at_trace [] ptA :=
  (claim_C9 [] ptA).1 ptA (Reachable.refl ptA)

/-! ### Arena bookkeeping lemmas -/

lemma list_set_getD {α : Type} (l : List α) (i : Nat) (b d : α) :
    (l.set i b).getD i d = if i < l.length then b else d := by
  induction l generalizing i with
  | nil => simp
  | cons a l ih =>
    cases i with
    | zero => simp
    | succ i =>
      simp only [List.set, List.getD_cons_succ, List.length_cons, ih,
        Nat.succ_lt_succ_iff]

lemma list_set_getD_eq {α : Type} (l : List α) (i : Nat) (d : α) :
    l.set i (l.getD i d) = l := by
  induction l generalizing i with
  | nil => rfl
  | cons a l ih =>
    cases i with
    | zero => simp
    | succ i =>
      simp only [List.set, List.getD_cons_succ, ih]

lemma list_set_append_self {α : Type} (l : List α) (a b : α) :
    (l ++ [a]).set l.length b = l ++ [b] := by
  induction l with
  | nil => rfl
  | cons x l ih => simpa using ih

/-! ### Unfolding lemmas for `water_storage_at` -/

/-- Abbreviation for the grid produced by the scan branch of
`get_stats`: the same grid with the freshly scanned summary memoised. -/
def rescanGrid (g : PlumbingStorageGrid) (mb : Mapbuffer) :
    PlumbingStorageGrid :=
  { g with cached_stats := some (scanStats g.tank_locations mb) }

/-- An indexed group with a memoised summary: the call returns the cached
value and changes nothing (the arena write rewrites the slot with its
current contents). -/
lemma water_storage_at_cached (st : SysState) (p : Tripoint) (i : Nat)
    (s0 : WaterStorageStats)
    (hidx : idxGet st.tracker.index (omtToSm p) = some i)
    (hc : (st.tracker.arena.getD i emptyStorageGrid).cached_stats = some s0) :
    water_storage_at st p = (st, s0) := by
  simp only [water_storage_at, Tracker.storageIdx, hidx, get_stats, hc,
    list_set_getD_eq]

/-- An indexed group whose summary was invalidated: the call rescans the
remembered tank locations against the current mapbuffer and memoises. -/
lemma water_storage_at_scan (st : SysState) (p : Tripoint) (i : Nat)
    (hidx : idxGet st.tracker.index (omtToSm p) = some i)
    (hc : (st.tracker.arena.getD i emptyStorageGrid).cached_stats = none) :
    water_storage_at st p =
      ({ st with tracker :=
          ⟨st.tracker.arena.set i
              (rescanGrid (st.tracker.arena.getD i emptyStorageGrid) st.mb),
            st.tracker.index⟩ },
        scanStats
          (st.tracker.arena.getD i emptyStorageGrid).tank_locations
          st.mb) := by
  simp only [water_storage_at, Tracker.storageIdx, hidx, get_stats, hc,
    rescanGrid]

/-- An unindexed submap: the call derives the component, builds a fresh
group over its submaps, indexes them all, scans and memoises. -/
lemma water_storage_at_miss (st : SysState) (p : Tripoint)
    (hidx : idxGet st.tracker.index (omtToSm p) = none) :
    water_storage_at st p =
      ({ st with tracker :=
          ⟨st.tracker.arena ++
              [rescanGrid
                (mkStorageGrid (submapsOfComponent (grid_at st.store p))
                  st.mb) st.mb],
            idxSetMany st.tracker.index
              (submapsOfComponent (grid_at st.store p))
              st.tracker.arena.length⟩ },
        scanStats
          (mkStorageGrid (submapsOfComponent (grid_at st.store p))
            st.mb).tank_locations
          st.mb) := by
  have hg := getD_append_self st.tracker.arena
    (mkStorageGrid (submapsOfComponent (grid_at st.store p)) st.mb)
    emptyStorageGrid
  simp only [water_storage_at, Tracker.storageIdx, hidx,
    makeStorageGridAt_result, get_stats, hg, list_set_append_self,
    rescanGrid]
  rfl

/-! ### Claim C6: cache idempotence of water_storage_at -/

/-- Claim C6: two consecutive `water_storage_at` calls on the same cell
with nothing in between return the same summary, the second call leaves
the state exactly as the first left it, and the second call reads the
memoised summary rather than rescanning — its result does not even depend
on the mapbuffer. -/
theorem claim_C6 (st : SysState) (p : Tripoint) :
    (water_storage_at (water_storage_at st p).1 p).2 =
      (water_storage_at st p).2 ∧
    (water_storage_at (water_storage_at st p).1 p).1 =
      (water_storage_at st p).1 ∧
    (∀ mb', (water_storage_at ⟨(water_storage_at st p).1.store,
        (water_storage_at st p).1.tracker, mb'⟩ p).2 =
      (water_storage_at st p).2) := by
  cases hidx : idxGet st.tracker.index (omtToSm p) with
  | some i =>
    cases hc : (st.tracker.arena.getD i emptyStorageGrid).cached_stats with
    | some s0 =>
      have h1 := water_storage_at_cached st p i s0 hidx hc
      refine ⟨?_, ?_, ?_⟩
      · rw [h1, h1]
      · rw [h1, h1]
      · intro mb'
        rw [h1]
        rw [water_storage_at_cached ⟨st.store, st.tracker, mb'⟩ p i s0
          hidx hc]
    | none =>
      have h1 := water_storage_at_scan st p i hidx hc
      by_cases hlen : i < st.tracker.arena.length
      · have hidx1 : idxGet (water_storage_at st p).1.tracker.index
            (omtToSm p) = some i := by
          rw [h1]
          exact hidx
        have hc1 : ((water_storage_at st p).1.tracker.arena.getD i
            emptyStorageGrid).cached_stats =
            some (scanStats (st.tracker.arena.getD i
              emptyStorageGrid).tank_locations st.mb) := by
          rw [h1]
          simp only [list_set_getD, if_pos hlen, rescanGrid]
        have h2 := water_storage_at_cached (water_storage_at st p).1 p i _
          hidx1 hc1
        refine ⟨?_, ?_, ?_⟩
        · rw [h2, h1]
        · rw [h2]
        · intro mb'
          have h3 := water_storage_at_cached
            ⟨(water_storage_at st p).1.store,
              (water_storage_at st p).1.tracker, mb'⟩ p i _ hidx1 hc1
          rw [h3, h1]
      · have hset : st.tracker.arena.set i
            (rescanGrid (st.tracker.arena.getD i emptyStorageGrid)
              st.mb) =
            st.tracker.arena :=
          List.set_eq_of_length_le (Nat.le_of_not_lt hlen)
        have hg : st.tracker.arena.getD i emptyStorageGrid =
            emptyStorageGrid := by
          rw [List.getD_eq_getElem?_getD, List.getElem?_eq_none
            (Nat.le_of_not_lt hlen)]
          rfl
        have h1' : water_storage_at st p = (st, ⟨0, 0⟩) := by
          rw [h1, hset, hg]
          rfl
        refine ⟨?_, ?_, ?_⟩
        · rw [h1', h1']
        · rw [h1', h1']
        · intro mb'
          rw [h1']
          have h3 := water_storage_at_scan ⟨st.store, st.tracker, mb'⟩ p i
            hidx hc
          rw [h3, hg]
          rfl
  | none =>
    have h1 := water_storage_at_miss st p hidx
    have hpm : omtToSm p ∈ submapsOfComponent (grid_at st.store p) :=
      mem_submapsOfComponent_base (self_mem_grid_at st.store p)
    have hidx1 : idxGet (water_storage_at st p).1.tracker.index
        (omtToSm p) = some st.tracker.arena.length := by
      rw [h1]
      rw [idxGet_idxSetMany, if_pos hpm]
    have hc1 : ((water_storage_at st p).1.tracker.arena.getD
        st.tracker.arena.length emptyStorageGrid).cached_stats =
        some (scanStats (mkStorageGrid (submapsOfComponent
          (grid_at st.store p)) st.mb).tank_locations st.mb) := by
      rw [h1]
      rw [getD_append_self]
      rfl
    have h2 := water_storage_at_cached (water_storage_at st p).1 p _ _
      hidx1 hc1
    refine ⟨?_, ?_, ?_⟩
    · rw [h2, h1]
    · rw [h2]
    · intro mb'
      have h3 := water_storage_at_cached
        ⟨(water_storage_at st p).1.store,
          (water_storage_at st p).1.tracker, mb'⟩ p _ _ hidx1 hc1
      rw [h3, h1]

theorem claim_C6_witness :
    (water_storage_at (water_storage_at (initState mbNone) ptA).1 ptA).2 =
      (water_storage_at (initState mbNone) ptA).2 :=
  (claim_C6 (initState mbNone) ptA).1

/-! ### Claim C7: invalidation -/

lemma list_getD_oor {α : Type} {l : List α} {i : Nat} (h : l.length ≤ i)
    (d : α) : l.getD i d = d := by
  rw [List.getD_eq_getElem?_getD, List.getElem?_eq_none h]
  rfl

lemma pushesOf_nil (r : List Tripoint) (e : Tripoint) :
    pushesOf [] r e = [] := by
  simp [pushesOf, bitTest, storeGet, emptyBitset]

/-- The component of a seed over the empty store is the seed alone. -/
lemma grid_at_empty (p : Tripoint) : grid_at [] p = [p] := by
  have h2 : visitInsert p [] = [p] := by
    rw [visitInsert, if_neg (List.not_mem_nil p)]
  simp only [grid_at, gridAtRun, bfsLoopT, h2, pushesOf_nil,
    List.nil_append, List.append_nil]

/-- Claim C7: after `on_contents_changed(loc)` hits an indexed group, the
group keeps its membership (no rebuild: neither the index map nor the
remembered tank locations change) but loses its memoised summary, and the
next `water_storage_at` on any cell mapping to the same group recomputes
the summary from the current mapbuffer contents instead of returning a
cached value. -/
theorem claim_C7 (st : SysState) (loc p : Tripoint) (i : Nat)
    (hloc : idxGet st.tracker.index (msToSm loc) = some i)
    (hp : idxGet st.tracker.index (omtToSm p) = some i) :
    (on_contents_changed st loc).tracker.index = st.tracker.index ∧
    ((on_contents_changed st loc).tracker.arena.getD i
      emptyStorageGrid).tank_locations =
      (st.tracker.arena.getD i emptyStorageGrid).tank_locations ∧
    ((on_contents_changed st loc).tracker.arena.getD i
      emptyStorageGrid).cached_stats = none ∧
    (water_storage_at (on_contents_changed st loc) p).2 =
      scanStats
        (st.tracker.arena.getD i emptyStorageGrid).tank_locations
        st.mb := by
  have hst' : on_contents_changed st loc =
      { st with tracker := ⟨st.tracker.arena.set i
          { st.tracker.arena.getD i emptyStorageGrid with
            cached_stats := none },
        st.tracker.index⟩ } := by
    simp only [on_contents_changed, hloc]
  have hidx' : (on_contents_changed st loc).tracker.index =
      st.tracker.index := by
    rw [hst']
  have hgetD : (on_contents_changed st loc).tracker.arena.getD i
      emptyStorageGrid =
      (if i < st.tracker.arena.length then
        { st.tracker.arena.getD i emptyStorageGrid with
          cached_stats := none }
      else emptyStorageGrid) := by
    rw [hst']
    exact list_set_getD _ _ _ _
  have htanks : ((on_contents_changed st loc).tracker.arena.getD i
      emptyStorageGrid).tank_locations =
      (st.tracker.arena.getD i emptyStorageGrid).tank_locations := by
    rw [hgetD]
    by_cases hlen : i < st.tracker.arena.length
    · rw [if_pos hlen]
    · rw [if_neg hlen,
        list_getD_oor (Nat.le_of_not_lt hlen) emptyStorageGrid]
  have hcached : ((on_contents_changed st loc).tracker.arena.getD i
      emptyStorageGrid).cached_stats = none := by
    rw [hgetD]
    by_cases hlen : i < st.tracker.arena.length
    · rw [if_pos hlen]
    · rw [if_neg hlen]
      rfl
  refine ⟨hidx', htanks, hcached, ?_⟩
  have hscan := water_storage_at_scan (on_contents_changed st loc) p i
    (by rw [hidx']; exact hp) hcached
  rw [hscan, htanks]
  rw [show (on_contents_changed st loc).mb = st.mb from by rw [hst']]

theorem claim_C7_witness :
    (water_storage_at (on_contents_changed
        (water_storage_at (initState mbNone) ptA).1 (omtToMs ptA)) ptA).2 =
      scanStats ((water_storage_at (initState mbNone) ptA).1.tracker.arena.getD
        0 emptyStorageGrid).tank_locations
        (water_storage_at (initState mbNone) ptA).1.mb :=
  (claim_C7 (water_storage_at (initState mbNone) ptA).1 (omtToMs ptA) ptA 0
    (by
      rw [water_storage_at_miss (initState mbNone) ptA rfl]
      rw [show (initState mbNone).store = [] from rfl, grid_at_empty]
      decide)
    (by
      rw [water_storage_at_miss (initState mbNone) ptA rfl]
      rw [show (initState mbNone).store = [] from rfl, grid_at_empty]
      decide)).2.2.2

/-! ### Claim C8: drain with no liquid found -/

/-- What `drain_to` does to the mapbuffer at one tank location apart from
liquid collection: clear the item list when the submap is resident and
the furniture is still the plumbed tank. -/
def clearStep (m : Mapbuffer) (loc : TankLoc) : Mapbuffer :=
  match m loc.sm with
  | none => m
  | some sm =>
      if (sm.furn loc.px loc.py).fid = furn_standing_tank_plumbed then
        mbSetItems m loc.sm loc.px loc.py []
      else m

/-- The cumulative item-clearing of the collection loop. -/
def clearTanks (locs : List TankLoc) (mb : Mapbuffer) : Mapbuffer :=
  locs.foldl clearStep mb

/-- No liquid sits at a tank location (as the drain loop would see it). -/
def NoLiquidAt (mb : Mapbuffer) (loc : TankLoc) : Prop :=
  ∀ sm, mb loc.sm = some sm →
    (sm.furn loc.px loc.py).fid = furn_standing_tank_plumbed →
    ∀ it ∈ sm.items loc.px loc.py, it.liquid = false

lemma drain_item_fold_no_liquid (items : List Item) (a : Int × Nat × Bool)
    (h : ∀ it ∈ items, it.liquid = false) :
    items.foldl (fun (a : Int × Nat × Bool) it =>
      if it.liquid then
        (a.1 + it.vol, (if a.2.2 then a.2.1 else it.typeId), true)
      else a) a = a := by
  induction items generalizing a with
  | nil => rfl
  | cons it items ih =>
    have hfalse : it.liquid = false := h it (by simp)
    rw [List.foldl_cons, if_neg (by rw [hfalse]; exact Bool.false_ne_true)]
    exact ih a (fun x hx => h x (List.mem_cons_of_mem _ hx))

lemma NoLiquidAt_mbSetItems (m : Mapbuffer) (smc : Tripoint) (px py : Nat)
    (loc : TankLoc) (h : NoLiquidAt m loc) :
    NoLiquidAt (mbSetItems m smc px py []) loc := by
  intro sm hsm hfurn it hit
  rw [mbSetItems] at hsm
  cases hm : m smc with
  | none =>
    rw [hm] at hsm
    exact h sm hsm hfurn it hit
  | some sm0 =>
    rw [hm] at hsm
    have hsm' : (if loc.sm = smc then some (sm0.setItems px py [])
        else m loc.sm) = some sm := hsm
    by_cases hq : loc.sm = smc
    · rw [if_pos hq] at hsm'
      obtain rfl := (Option.some.inj hsm').symm
      have hfurn' : (sm0.furn loc.px loc.py).fid =
          furn_standing_tank_plumbed := hfurn
      have hit' : it ∈ (if loc.px = px ∧ loc.py = py then ([] : List Item)
          else sm0.items loc.px loc.py) := hit
      by_cases hxy : loc.px = px ∧ loc.py = py
      · rw [if_pos hxy] at hit'
        cases hit'
      · rw [if_neg hxy] at hit'
        exact h sm0 (by rw [hq]; exact hm) hfurn' it hit'
    · rw [if_neg hq] at hsm'
      exact h sm hsm' hfurn it hit

lemma clearStep_cases (m : Mapbuffer) (loc0 : TankLoc) :
    clearStep m loc0 = m ∨
    clearStep m loc0 = mbSetItems m loc0.sm loc0.px loc0.py [] := by
  rw [clearStep]
  cases hm : m loc0.sm with
  | none => exact Or.inl rfl
  | some sm0 =>
    by_cases hf : (sm0.furn loc0.px loc0.py).fid =
        furn_standing_tank_plumbed
    · refine Or.inr ?_
      show (if (sm0.furn loc0.px loc0.py).fid =
          furn_standing_tank_plumbed then
        mbSetItems m loc0.sm loc0.px loc0.py [] else m) = _
      rw [if_pos hf]
    · refine Or.inl ?_
      show (if (sm0.furn loc0.px loc0.py).fid =
          furn_standing_tank_plumbed then
        mbSetItems m loc0.sm loc0.px loc0.py [] else m) = _
      rw [if_neg hf]

lemma NoLiquidAt_clearStep (m : Mapbuffer) (loc0 loc : TankLoc)
    (h : NoLiquidAt m loc) : NoLiquidAt (clearStep m loc0) loc := by
  rcases clearStep_cases m loc0 with hc | hc
  · rw [hc]
    exact h
  · rw [hc]
    exact NoLiquidAt_mbSetItems m loc0.sm loc0.px loc0.py loc h

lemma drainStep_no_liquid (mb : Mapbuffer) (t : Int) (k : Nat)
    (loc : TankLoc) (h : NoLiquidAt mb loc) :
    drainStep (mb, t, k, false) loc = (clearStep mb loc, t, k, false) := by
  rw [drainStep, clearStep]
  cases hm : mb loc.sm with
  | none => rfl
  | some sm =>
    show (if (sm.furn loc.px loc.py).fid = furn_standing_tank_plumbed
        then ((mbSetItems mb loc.sm loc.px loc.py [],
          (sm.items loc.px loc.py).foldl (fun (a : Int × Nat × Bool) it =>
            if it.liquid then
              (a.1 + it.vol, (if a.2.2 then a.2.1 else it.typeId), true)
            else a) (t, k, false)) : Mapbuffer × Int × Nat × Bool)
        else (mb, t, k, false)) =
      ((if (sm.furn loc.px loc.py).fid = furn_standing_tank_plumbed then
        mbSetItems mb loc.sm loc.px loc.py [] else mb), t, k, false)
    by_cases hf : (sm.furn loc.px loc.py).fid = furn_standing_tank_plumbed
    · rw [if_pos hf, if_pos hf,
        drain_item_fold_no_liquid _ _ (h sm hm hf)]
    · rw [if_neg hf, if_neg hf]

lemma drainCollect_no_liquid (locs : List TankLoc) (mb : Mapbuffer)
    (h : ∀ loc ∈ locs, NoLiquidAt mb loc) :
    drainCollect locs mb = (clearTanks locs mb, 0, 0, false) := by
  suffices hgen : ∀ (m : Mapbuffer) (t : Int) (k : Nat),
      (∀ loc ∈ locs, NoLiquidAt m loc) →
      locs.foldl drainStep (m, t, k, false) =
        (locs.foldl clearStep m, t, k, false) by
    exact hgen mb 0 0 h
  clear h
  induction locs with
  | nil =>
    intro m t k _
    rfl
  | cons loc locs ih =>
    intro m t k h
    rw [List.foldl_cons, List.foldl_cons,
      drainStep_no_liquid m t k loc (h loc (by simp))]
    exact ih (clearStep m loc) t k (fun l hl =>
      NoLiquidAt_clearStep m loc l (h l (List.mem_cons_of_mem _ hl)))

lemma mbSetItems_items_frame (m : Mapbuffer) (smc : Tripoint)
    (px0 py0 : Nat) (l : List Item) (q : Tripoint) (px py : Nat)
    (h : ¬(smc = q ∧ px0 = px ∧ py0 = py)) :
    ((mbSetItems m smc px0 py0 l) q).map (fun sm => sm.items px py) =
      (m q).map (fun sm => sm.items px py) := by
  rw [mbSetItems]
  cases hm : m smc with
  | none => rfl
  | some sm0 =>
    show (if q = smc then some (sm0.setItems px0 py0 l)
        else m q).map (fun sm => sm.items px py) =
      (m q).map (fun sm => sm.items px py)
    by_cases hq : q = smc
    · rw [if_pos hq, hq, hm]
      rw [Option.map_some', Option.map_some', Submap.setItems]
      show some (if px = px0 ∧ py = py0 then l else sm0.items px py) =
        some (sm0.items px py)
      by_cases hxy : px = px0 ∧ py = py0
      · exact absurd ⟨hq.symm, hxy.1.symm, hxy.2.symm⟩ h
      · rw [if_neg hxy]
    · rw [if_neg hq]

lemma clearStep_items_frame (m : Mapbuffer) (loc : TankLoc) (q : Tripoint)
    (px py : Nat) (h : ¬(loc.sm = q ∧ loc.px = px ∧ loc.py = py)) :
    ((clearStep m loc) q).map (fun sm => sm.items px py) =
      (m q).map (fun sm => sm.items px py) := by
  rcases clearStep_cases m loc with hc | hc
  · rw [hc]
  · rw [hc]
    exact mbSetItems_items_frame m loc.sm loc.px loc.py [] q px py h

lemma clearTanks_items_frame (locs : List TankLoc) (mb : Mapbuffer)
    (q : Tripoint) (px py : Nat)
    (h : ∀ loc ∈ locs, ¬(loc.sm = q ∧ loc.px = px ∧ loc.py = py)) :
    ((clearTanks locs mb) q).map (fun sm => sm.items px py) =
      (mb q).map (fun sm => sm.items px py) := by
  induction locs generalizing mb with
  | nil => rfl
  | cons loc locs ih =>
    rw [clearTanks, List.foldl_cons]
    rw [show List.foldl clearStep (clearStep mb loc) locs =
      clearTanks locs (clearStep mb loc) from rfl]
    rw [ih (clearStep mb loc) (fun l hl => h l (List.mem_cons_of_mem _ hl)),
      clearStep_items_frame mb loc q px py (h loc (by simp))]

/-- Claim C8 (amended): when the drain finds no liquid in any fixture of
the group, it deposits nothing — the result is exactly the dirty-marked
grid and the mapbuffer with the item lists at the (still-valid) fixture
locations cleared; in particular any location that is not a fixture
location, such as a non-fixture target, keeps its contents, but a fixture
holding only non-liquid items does lose them. -/
theorem claim_C8 (g : PlumbingStorageGrid) (mb : Mapbuffer)
    (target : Tripoint)
    (h : ∀ loc ∈ g.tank_locations, NoLiquidAt mb loc) :
    drain_to g mb target =
      ({ g with cached_stats := none }, clearTanks g.tank_locations mb) ∧
    (∀ q px py, (∀ loc ∈ g.tank_locations,
        ¬(loc.sm = q ∧ loc.px = px ∧ loc.py = py)) →
      (((drain_to g mb target).2 q).map (fun sm => sm.items px py)) =
        ((mb q).map (fun sm => sm.items px py))) := by
  have hd : drain_to g mb target =
      ({ g with cached_stats := none }, clearTanks g.tank_locations mb) := by
    rw [drain_to, drainCollect_no_liquid _ _ h]
    rw [if_pos (Or.inl rfl)]
  refine ⟨hd, ?_⟩
  intro q px py hq
  rw [hd]
  exact clearTanks_items_frame g.tank_locations mb q px py hq

/-! #### The C8 counterexample scenario -/

def tankFurn : FurnT := ⟨furn_standing_tank_plumbed, 60⟩

def otherFurn : FurnT := ⟨0, 0⟩

/-- A non-liquid item sitting inside the tank. -/
def rockItem : Item := ⟨5, false, 3⟩

def c8Submap : Submap :=
  ⟨fun x y => if x = 0 ∧ y = 0 then tankFurn else otherFurn,
    fun x y => if x = 0 ∧ y = 0 then [rockItem] else []⟩

def c8Mb : Mapbuffer :=
  fun q => if q = ⟨0, 0, 0⟩ then some c8Submap else none

def c8State : SysState := ⟨[], ⟨[], []⟩, c8Mb⟩

/-- `plumbing_grid_tracker::storage_at` on a fresh tracker always builds
the storage grid of the seed's component. -/
lemma storageIdx_fresh (s : ConnStore) (mb : Mapbuffer) (p : Tripoint) :
    Tracker.storageIdx ⟨[], []⟩ s mb p =
      (⟨[mkStorageGrid (submapsOfComponent (grid_at s p)) mb],
        idxSetMany [] (submapsOfComponent (grid_at s p)) 0⟩, some 0) := by
  rw [Tracker.storageIdx,
    show idxGet ([] : List (Tripoint × Nat)) (omtToSm p) = none from rfl,
    makeStorageGridAt_result]
  rfl

/-- Counterexample to claim C8 as stated: a drain that finds no liquid is
not a no-op on fixture contents.  The tank at `(0,0,0)` holds only a
non-liquid item; `disconnect_tank` finds no liquid, yet the item list at
the fixture is cleared — the rock is destroyed. -/
theorem claim_C8_counterexample :
    rockItem.liquid = false ∧
    ((c8State.mb ⟨0, 0, 0⟩).map (fun sm => sm.items 0 0)) =
      some [rockItem] ∧
    (((disconnect_tank c8State ⟨5, 5, 0⟩).mb ⟨0, 0, 0⟩).map
      (fun sm => sm.items 0 0)) = some [] := by
  refine ⟨rfl, rfl, ?_⟩
  simp only [disconnect_tank, c8State, storageIdx_fresh, grid_at_empty]
  decide

theorem claim_C8_witness :
    drain_to (mkStorageGrid [⟨0, 0, 0⟩] c8Mb) c8Mb ⟨5, 5, 0⟩ =
      ({ mkStorageGrid [⟨0, 0, 0⟩] c8Mb with cached_stats := none },
        clearTanks (mkStorageGrid [⟨0, 0, 0⟩] c8Mb).tank_locations c8Mb) :=
  (claim_C8 (mkStorageGrid [⟨0, 0, 0⟩] c8Mb) c8Mb ⟨5, 5, 0⟩ (by
    have hl : (mkStorageGrid [⟨0, 0, 0⟩] c8Mb).tank_locations =
        [⟨⟨0, 0, 0⟩, 0, 0⟩] := by decide
    rw [hl]
    intro loc hloc
    rcases List.mem_singleton.mp hloc with rfl
    intro sm hsm hfurn it hit
    have hmb : c8Mb ⟨0, 0, 0⟩ = some c8Submap := rfl
    rw [hmb] at hsm
    obtain rfl := (Option.some.inj hsm).symm
    have hitems : c8Submap.items 0 0 = [rockItem] := rfl
    rw [hitems] at hit
    rcases List.mem_singleton.mp hit with rfl
    rfl)).1

/-! ### Claim C5: drain correctness -/

/-- The symmetric edge `ptA–ptB` (exactly what a successful
`add_grid_connection(ptA, ptB)` writes). -/
def c5Store : ConnStore := setBit (setBit [] ptA 1 true) ptB 3 true

/-- A submap with one plumbed tank at `(0,0)` holding one liquid stack of
kind `K` and volume `V`. -/
def c5Submap (K : Nat) (V : Int) : Submap :=
  ⟨fun x y => if x = 0 ∧ y = 0 then tankFurn else otherFurn,
    fun x y => if x = 0 ∧ y = 0 then [⟨K, true, V⟩] else []⟩

/-- The mapbuffer of the drain scenario: the tank of cell `ptA` sits in
submap `(0,0,0)` with volume `V1`, the tank of cell `ptB` in submap
`(2,0,0)` with volume `V2`; both hold liquid of kind `K`; the remaining
submaps are not resident. -/
def c5Mb (K : Nat) (V1 V2 : Int) : Mapbuffer :=
  fun q =>
    if q = ⟨0, 0, 0⟩ then some (c5Submap K V1)
    else if q = ⟨2, 0, 0⟩ then some (c5Submap K V2) else none

def c5State (K : Nat) (V1 V2 : Int) : SysState :=
  ⟨c5Store, ⟨[], []⟩, c5Mb K V1 V2⟩

lemma c5_grid : grid_at c5Store ptA = [ptB, ptA] := by
  have h2 : visitInsert ptA [] = [ptA] := by decide
  have h1 : pushesOf c5Store [ptA] ptA = [ptB] := by decide
  have h3 : visitInsert ptB [ptA] = [ptB, ptA] := by decide
  have h4 : pushesOf c5Store [ptB, ptA] ptB = [] := by decide
  simp only [grid_at, gridAtRun, bfsLoopT, h1, h2, h3, h4,
    List.nil_append, List.append_nil]

set_option maxHeartbeats 2000000 in
/-- Claim C5: with a two-cell component whose fixtures hold liquid
volumes `V1` and `V2` of kind `K`, `disconnect_tank` at a map square of
that component empties both fixtures and deposits one stack of kind `K`
with volume `V1 + V2` at the target (replacing its contents), and a
subsequent `water_storage_at` on either cell of the component reports
zero stored volume. -/
theorem claim_C5 (K : Nat) (V1 V2 : Int) (h1 : 0 < V1) (h2 : 0 < V2) :
    (((disconnect_tank (c5State K V1 V2) ⟨5, 5, 0⟩).mb ⟨0, 0, 0⟩).map
      (fun sm => sm.items 0 0)) = some [] ∧
    (((disconnect_tank (c5State K V1 V2) ⟨5, 5, 0⟩).mb ⟨2, 0, 0⟩).map
      (fun sm => sm.items 0 0)) = some [] ∧
    (((disconnect_tank (c5State K V1 V2) ⟨5, 5, 0⟩).mb ⟨0, 0, 0⟩).map
      (fun sm => sm.items 5 5)) = some [⟨K, true, V1 + V2⟩] ∧
    (water_storage_at (disconnect_tank (c5State K V1 V2) ⟨5, 5, 0⟩)
      ptA).2.stored = 0 ∧
    (water_storage_at (disconnect_tank (c5State K V1 V2) ⟨5, 5, 0⟩)
      ptB).2.stored = 0 := by
  have hms0 : msToOmt ⟨5, 5, 0⟩ = ptA := by decide
  have hcollect : drainCollect (mkStorageGrid
      (submapsOfComponent [ptB, ptA]) (c5Mb K V1 V2)).tank_locations
      (c5Mb K V1 V2) =
      (mbSetItems (mbSetItems (c5Mb K V1 V2) ⟨2, 0, 0⟩ 0 0 [])
        ⟨0, 0, 0⟩ 0 0 [], 0 + V2 + V1, K, true) := rfl
  have hcond : ¬((true = false) ∨ 0 + V2 + V1 ≤ 0) := by
    rintro (hc | hc)
    · cases hc
    · omega
  have hdrain : drain_to (mkStorageGrid (submapsOfComponent [ptB, ptA])
      (c5Mb K V1 V2)) (c5Mb K V1 V2) ⟨5, 5, 0⟩ =
      ({ mkStorageGrid (submapsOfComponent [ptB, ptA]) (c5Mb K V1 V2)
          with cached_stats := none },
        mbSetItems (mbSetItems (mbSetItems (c5Mb K V1 V2)
          ⟨2, 0, 0⟩ 0 0 []) ⟨0, 0, 0⟩ 0 0 [])
          ⟨0, 0, 0⟩ 5 5 [⟨K, true, 0 + V2 + V1⟩]) := by
    rw [drain_to, hcollect]
    rw [if_neg hcond]
    rfl
  have hdt : disconnect_tank (c5State K V1 V2) ⟨5, 5, 0⟩ =
      ⟨c5Store,
        ⟨[(drain_to (mkStorageGrid (submapsOfComponent [ptB, ptA])
            (c5Mb K V1 V2)) (c5Mb K V1 V2) ⟨5, 5, 0⟩).1],
          idxSetMany [] (submapsOfComponent [ptB, ptA]) 0⟩,
        (drain_to (mkStorageGrid (submapsOfComponent [ptB, ptA])
          (c5Mb K V1 V2)) (c5Mb K V1 V2) ⟨5, 5, 0⟩).2⟩ := by
    simp only [disconnect_tank, c5State, storageIdx_fresh, hms0, c5_grid]
    rfl
  refine ⟨?_, ?_, ?_, ?_, ?_⟩
  · rw [hdt, hdrain]
    rfl
  · rw [hdt, hdrain]
    rfl
  · rw [hdt, hdrain]
    show some [(⟨K, true, 0 + V2 + V1⟩ : Item)] =
      some [⟨K, true, V1 + V2⟩]
    simp only [Option.some.injEq, List.cons.injEq, Item.mk.injEq,
      and_true, true_and]
    omega
  · rw [hdt, hdrain]
    rfl
  · rw [hdt, hdrain]
    rfl

theorem claim_C5_witness :
    (((disconnect_tank (c5State 7 1 1) ⟨5, 5, 0⟩).mb ⟨0, 0, 0⟩).map
      (fun sm => sm.items 5 5)) = some [⟨7, true, 1 + 1⟩] :=
  (claim_C5 7 1 1 (by decide) (by decide)).2.2.1

end PlumbingGrid
